import Mathlib

/-!
# Wake-on-LAN service: registry and wake engine

A shallow embedding of `wol/wol.go` (magic packet construction, target
selection, repeated send) and of `storage/storage.go` (the device registry),
followed by theorems about them.

Conventions of the embedding.

* A Go `string` is its sequence of bytes, `GoString := List Nat`; a byte is a
  natural number below 256.  Go compares strings byte by byte, which is list
  equality here.
* A Go `error` result is `Option _` (`none` is `nil`) or `Except`.
* Library calls whose result depends on the outside world or on the Go
  standard library (`net.Interfaces`, `net.ParseIP`, the outcome of a UDP
  send, the outcome of writing the snapshot file) are inputs of the model.
-/

set_option maxRecDepth 100000

namespace Wol

/-- A Go string, as the sequence of its bytes. -/
abbrev GoString := List Nat

/-- The UTF-8 encoding of one code point. -/
def utf8Bytes (c : Nat) : List Nat :=
  if c < 0x80 then [c]
  else if c < 0x800 then [0xC0 + c / 64, 0x80 + c % 64]
  else if c < 0x10000 then [0xE0 + c / 4096, 0x80 + c / 64 % 64, 0x80 + c % 64]
  else [0xF0 + c / 262144, 0x80 + c / 4096 % 64, 0x80 + c / 64 % 64, 0x80 + c % 64]

/-- The bytes of a string literal (its UTF-8 encoding). -/
def str (s : String) : GoString :=
  s.toList.flatMap (fun c => utf8Bytes c.toNat)

deriving instance DecidableEq for Except

/-! ## `strings.ReplaceAll` and `encoding/hex` -/

/-- Library `strings.ReplaceAll(s, old, "")` for a one-byte `old`: every occurrence of
the byte is dropped, everything else is kept in order. -/
def ReplaceAll (s : GoString) (old : Nat) : GoString :=
  s.filter (fun b => b != old)

/-- Library `encoding/hex`, the table lookup on one byte: the value of a hexadecimal
digit `0-9`, `a-f`, `A-F`, and `none` for every other byte. -/
def fromHexChar (c : Nat) : Option Nat :=
  if 48 ≤ c ∧ c ≤ 57 then some (c - 48)
  else if 97 ≤ c ∧ c ≤ 102 then some (c - 97 + 10)
  else if 65 ≤ c ∧ c ≤ 70 then some (c - 65 + 10)
  else none

/-- The errors of the wake engine. -/
inductive WolError where
  /-- Library `hex.InvalidByteError`, wrapped as "invalid hex string". -/
  | invalidHex (b : Nat)
  /-- Library `hex.ErrLength` (odd number of digits), wrapped as "invalid hex string". -/
  | invalidHexLength
  /-- Message "invalid MAC address length". -/
  | invalidMACLength
  /-- The error of `net.Interfaces()`. -/
  | interfaces
  /-- An error of `net.Dial` or of `conn.Write`. -/
  | send
  deriving DecidableEq, Repr

/-- Library `hex.DecodeString`: bytes are consumed in pairs, each pair of digits
`p q` giving the byte `(a << 4) | b`; the first byte that is no digit stops the
decoding with `InvalidByteError`, and a trailing single digit with
`ErrLength`. -/
def DecodeString : GoString → Except WolError (List Nat)
  | [] => .ok []
  | [p] =>
    match fromHexChar p with
    | none => .error (.invalidHex p)
    | some _ => .error .invalidHexLength
  | p :: q :: rest =>
    match fromHexChar p with
    | none => .error (.invalidHex p)
    | some a =>
      match fromHexChar q with
      | none => .error (.invalidHex q)
      | some b =>
        match DecodeString rest with
        | .error e => .error e
        | .ok bs => .ok (((a <<< 4) ||| b) :: bs)

/-! ## The magic packet -/

/-- Go's `copy(dst[off:], src)` on a fixed-size buffer: the first
`min (len dst - off) (len src)` bytes of `src` overwrite `dst` from offset
`off`; the length of `dst` does not change. -/
def copyAt (dst : List Nat) (off : Nat) (src : List Nat) : List Nat :=
  let n := min (dst.length - off) src.length
  dst.take off ++ src.take n ++ dst.drop (off + n)

/-- The zero value of `MagicPacket`, `[102]byte`. -/
def zeroPacket : List Nat := List.replicate 102 0

/-- Function `NewMagicPacket`: strips `:`, `-` and `.`, hex-decodes the rest, requires
six bytes, and fills the 102-byte packet. -/
def NewMagicPacket (macAddr : GoString) : Except WolError (List Nat) :=
  let macAddr := ReplaceAll macAddr 58
  let macAddr := ReplaceAll macAddr 45
  let macAddr := ReplaceAll macAddr 46
  match DecodeString macAddr with
  | .error e => .error e
  | .ok macBytes =>
    if macBytes.length ≠ 6 then .error .invalidMACLength
    else
      let packet := copyAt zeroPacket 0 [0xFF, 0xFF, 0xFF, 0xFF, 0xFF, 0xFF]
      let packet := (List.range 16).foldl
        (fun packet i => copyAt packet (6 + i * 6) macBytes) packet
      .ok packet

/-- The six bytes of group `i` of a packet: offsets `6+6i .. 6+6i+5`. -/
def macGroup (packet : List Nat) (i : Nat) : List Nat :=
  (packet.drop (6 + 6 * i)).take 6

/-- The MAC string with every `:`, `-` and `.` removed, as `NewMagicPacket`
computes it before decoding. -/
def stripDelimiters (macAddr : GoString) : GoString :=
  ReplaceAll (ReplaceAll (ReplaceAll macAddr 58) 45) 46

/-- A hexadecimal digit, upper or lower case: `0-9`, `A-F`, `a-f`. -/
def isHexDigit (c : Nat) : Bool :=
  (48 ≤ c && c ≤ 57) || (65 ≤ c && c ≤ 70) || (97 ≤ c && c ≤ 102)

/-! ## Broadcast targets and `Wake` -/

/-- Library `strconv`: the decimal digits of a natural number. -/
def natDigits (n : Nat) : GoString :=
  (Nat.toDigits 10 n).map Char.toNat

/-- The verb `%d` of `fmt.Sprintf` on an `int`: decimal, with `-` for a
negative number. -/
def itoa : Int → GoString
  | .ofNat n => natDigits n
  | .negSucc n => 45 :: natDigits (n + 1)

/-- Library `net.FlagUp`, `1 << 0`. -/
def FlagUp : Nat := 1

/-- Library `net.FlagLoopback`, `1 << 2`. -/
def FlagLoopback : Nat := 4

/-- What `net.ParseCIDR` returns for one interface address: the address (4 or
16 bytes) and the mask of its network (4 bytes for an IPv4 network, 16 for an
IPv6 one). -/
structure CIDR where
  ip : List Nat
  mask : List Nat
  deriving DecidableEq, Repr

/-- One entry of `net.Interfaces()`: its flags, and the result of `Addrs()`:
`none` when `Addrs()` fails, otherwise for each address the result of
`net.ParseCIDR(addr.String())`, `none` when it fails. -/
structure Interface where
  Flags : Nat
  Addrs : Option (List (Option CIDR))
  deriving DecidableEq, Repr

/-- Library `IP.To4`: a 4-byte address is itself; a 16-byte address that is an
IPv4-mapped one (ten zero bytes, `0xff`, `0xff`) is its last four bytes;
anything else is nil. -/
def To4 (ip : List Nat) : Option (List Nat) :=
  if ip.length = 4 then some ip
  else if ip.length = 16 ∧ (ip.take 10).all (fun b => b = 0) ∧
      ip.getD 10 0 = 0xff ∧ ip.getD 11 0 = 0xff then
    some (ip.drop 12)
  else none

/-- The loop `broadcast[k] = ip4[k] | ^mask[k]` over the bytes of `ip4`; the
mask `net.ParseCIDR` returns has at least four bytes. -/
def broadcastOf (ip4 mask : List Nat) : List Nat :=
  (List.range ip4.length).map (fun k => ip4.getD k 0 ||| (255 - mask.getD k 0))

/-- Library `IP.String` on a 4-byte address: dotted decimal. -/
def ipString (ip : List Nat) : GoString :=
  (ip.map natDigits).intersperse [46] |>.flatten

/-- The inner loop of `getBroadcastAddresses`, over the addresses of one
interface. -/
def addrsLoop (addrs : List (Option CIDR)) (list : List GoString) : List GoString :=
  addrs.foldl
    (fun list addr =>
      match addr with
      | none => list
      | some c =>
        match To4 c.ip with
        | none => list
        | some ip4 => list ++ [ipString (broadcastOf ip4 c.mask)])
    list

/-- Function `getBroadcastAddresses`; its argument is the result of
`net.Interfaces()`. -/
def getBroadcastAddresses (ifaces : Except WolError (List Interface)) :
    Except WolError (List GoString) :=
  match ifaces with
  | .error err => .error err
  | .ok ifaces =>
    .ok (ifaces.foldl
      (fun list i =>
        if i.Flags &&& FlagUp = 0 ∨ i.Flags &&& FlagLoopback ≠ 0 then list
        else
          match i.Addrs with
          | none => list
          | some addrs => addrsLoop addrs list)
      [])

/-- What a call of `Wake` sees of the outside world: the result of
`net.Interfaces()`, and for the `k`-th send attempt to a target whether
`net.Dial` and `conn.Write` succeed. -/
structure Network where
  Interfaces : Except WolError (List Interface)
  sendResult : Nat → GoString → Option WolError

/-- What `Wake` does to the outside world, in order. -/
inductive Event where
  /-- A call of `mp.Send(target)`: a UDP datagram with the packet as payload. -/
  | send (target : GoString) (packet : List Nat)
  /-- A call of `time.Sleep`, in milliseconds. -/
  | sleep (ms : Nat)
  deriving DecidableEq, Repr

/-- Function `MagicPacket.Send`: the attempt is recorded, and its result is the
network's. -/
def Send (net : Network) (log : List Event) (mp : List Nat) (broadcastAddr : GoString) :
    List Event × Option WolError :=
  (log ++ [.send broadcastAddr mp], net.sendResult log.length broadcastAddr)

/-- The target list of `Wake`, or the error of the resolver. -/
def wakeTargets (net : Network) (broadcastIP : GoString) (port : Int) :
    Except WolError (List GoString) :=
  if broadcastIP ≠ [] then .ok [broadcastIP ++ str ":" ++ itoa port]
  else
    match getBroadcastAddresses net.Interfaces with
    | .error err => .error err
    | .ok addrs =>
      if addrs.length = 0 then .ok [str "255.255.255.255:" ++ itoa port]
      else .ok (addrs.foldl (fun targets addr => targets ++ [addr ++ str ":" ++ itoa port]) [])

/-- The send loop of `Wake`: five rounds, each sending to every target and
dropping the result of the send, then sleeping 100 ms. -/
def sendLoop (net : Network) (mp : List Nat) (targets : List GoString) : List Event :=
  (List.range 5).foldl
    (fun log _ =>
      let log := targets.foldl (fun log target => (Send net log mp target).1) log
      log ++ [.sleep 100])
    []

/-- Function `Wake`: what it did, and the error it returns. -/
def Wake (net : Network) (macAddr broadcastIP : GoString) (port : Int) :
    List Event × Option WolError :=
  match NewMagicPacket macAddr with
  | .error err => ([], some err)
  | .ok mp =>
    match wakeTargets net broadcastIP port with
    | .error err => ([], some err)
    | .ok targets => (sendLoop net mp targets, none)

/-- The send attempts among the events, in order. -/
def sendsOf (events : List Event) : List (GoString × List Nat) :=
  events.filterMap (fun e =>
    match e with
    | .send target packet => some (target, packet)
    | .sleep _ => none)

/-- The target list as the specification words it: the one entry
`broadcastIP:port` when `broadcastIP` is given, otherwise every address of the
resolver paired with `port`, or `255.255.255.255:port` when there is none. -/
def targetList (broadcastIP : GoString) (port : Int) (addrs : List GoString) : List GoString :=
  if broadcastIP ≠ [] then [broadcastIP ++ str ":" ++ itoa port]
  else if addrs = [] then [str "255.255.255.255:" ++ itoa port]
  else addrs.map (fun addr => addr ++ str ":" ++ itoa port)

/-- A host with a loopback interface, an Ethernet interface that is up with an
IPv4 and an IPv6 address, and an interface that is down; every third send
attempt fails. -/
def sampleNetwork : Network :=
  { Interfaces := .ok
      [{ Flags := 5, Addrs := some [some { ip := [127, 0, 0, 1], mask := [255, 0, 0, 0] }] },
       { Flags := 19,
         Addrs := some
           [some { ip := [0, 0, 0, 0, 0, 0, 0, 0, 0, 0, 255, 255, 192, 168, 1, 50],
                   mask := [255, 255, 255, 0] },
            some { ip := [254, 128, 0, 0, 0, 0, 0, 0, 0, 0, 0, 0, 0, 0, 0, 1],
                   mask := [255, 255, 255, 255, 255, 255, 255, 255, 0, 0, 0, 0, 0, 0, 0, 0] },
            none] },
       { Flags := 18, Addrs := some [some { ip := [10, 0, 0, 7], mask := [255, 0, 0, 0] }] }],
    sendResult := fun k _ => if k % 3 = 0 then some .send else none }

/-- A host on which `net.Interfaces()` fails. -/
def brokenNetwork : Network :=
  { Interfaces := .error .interfaces, sendResult := fun _ _ => none }


/-! ## The validator (`storage/storage.go`) -/

/-- Library `net`, its helper `xtoi2`: the first two bytes of `s` must be hexadecimal digits, and
the third byte, when there is one, must be `e`. -/
def xtoi2 (s : GoString) (e : Nat) : Option Nat :=
  if s.length > 2 ∧ s.getD 2 0 ≠ e then none
  else
    match s with
    | p :: q :: _ =>
      match fromHexChar p, fromHexChar q with
      | some a, some b => some (a * 16 + b)
      | _, _ => none
    | _ => none

/-- Library `net.ParseMAC`: 6, 8 or 20 octets written `xx:xx:..`, `xx-xx-..`,
`xxxx.xxxx...` or, with no separator, `xxxxxx..`; `none` is the error result.
A third byte `:` or `-` selects the first two forms, otherwise a fifth byte `.`
the third, and otherwise the digits are read with no separator. -/
def ParseMAC (s : GoString) : Option (List Nat) :=
  if s.getD 2 0 = 58 ∨ s.getD 2 0 = 45 then
    if (s.length + 1) % 3 ≠ 0 then none
    else
      let n := (s.length + 1) / 3
      if n ≠ 6 ∧ n ≠ 8 ∧ n ≠ 20 then none
      else (List.range n).mapM (fun i => xtoi2 (s.drop (3 * i)) (s.getD 2 0))
  else if s.getD 4 0 = 46 then
    if (s.length + 1) % 5 ≠ 0 then none
    else
      let n := 2 * (s.length + 1) / 5
      if n ≠ 6 ∧ n ≠ 8 ∧ n ≠ 20 then none
      else
        ((List.range (n / 2)).mapM (fun i =>
          match xtoi2 ((s.drop (5 * i)).take 2) 0, xtoi2 (s.drop (5 * i + 2)) (s.getD 4 0) with
          | some a, some b => some [a, b]
          | _, _ => none)).map List.flatten
  else
    if s.length % 2 ≠ 0 then none
    else
      let n := s.length / 2
      if n ≠ 6 ∧ n ≠ 8 ∧ n ≠ 20 then none
      else (List.range n).mapM (fun i => xtoi2 ((s.drop (2 * i)).take 2) 0)
/-- Function `isValidMAC`: `net.ParseMAC` returns no error. -/
def isValidMAC (mac : GoString) : Bool :=
  (ParseMAC mac).isSome

/-- Function `isValidIP`: `net.ParseIP` returns a non-nil address.  `net.ParseIP` is an
input of the model: `ParseIP s` is `none` when the library returns nil. -/
def isValidIP (ParseIP : GoString → Option (List Nat)) (ip : GoString) : Bool :=
  (ParseIP ip).isSome

/-- The character class `[a-zA-Z0-9]`. -/
def isAlnum (c : Nat) : Bool :=
  (97 ≤ c && c ≤ 122) || (65 ≤ c && c ≤ 90) || (48 ≤ c && c ≤ 57)

/-- One label of the hostname pattern,
`[a-zA-Z0-9]|[a-zA-Z0-9][a-zA-Z0-9\-]{0,61}[a-zA-Z0-9]`: one alphanumeric, or
two alphanumerics around at most 61 alphanumerics or hyphens. -/
def matchLabel (l : GoString) : Bool :=
  match l with
  | [] => false
  | [c] => isAlnum c
  | c :: rest =>
    isAlnum c && isAlnum (rest.getLastD 0) &&
      decide (rest.dropLast.length ≤ 61) &&
      rest.dropLast.all (fun b => isAlnum b || b == 45)

/-- The pieces of `s` between the occurrences of the byte `sep`. -/
def splitOnByte (sep : Nat) : GoString → List GoString
  | [] => [[]]
  | c :: rest =>
    if c = sep then [] :: splitOnByte sep rest
    else
      match splitOnByte sep rest with
      | [] => [[c]]
      | piece :: pieces => (c :: piece) :: pieces

/-- The anchored hostname pattern `^(label)(\.(label))*$` of `isValidHostname`:
a `.`-separated, non-empty sequence of labels. -/
def matchHostname (host : GoString) : Bool :=
  (splitOnByte 46 host).all matchLabel

/-- Function `isValidHostname`. -/
def isValidHostname (host : GoString) : Bool :=
  if host.length > 255 then false
  else matchHostname host

/-- Function `isValidHostOrIP`. -/
def isValidHostOrIP (ParseIP : GoString → Option (List Nat)) (host : GoString) : Bool :=
  if host = [] then true
  else if isValidIP ParseIP host then true
  else isValidHostname host

/-- The `SubDevice` record. -/
structure SubDevice where
  MAC : GoString
  IP : GoString
  Port : Int
  BroadcastIP : GoString
  Remark : GoString
  deriving DecidableEq, Repr

/-- The `Device` record. -/
structure Device where
  Name : GoString
  MAC : GoString
  IP : GoString
  Port : Int
  BroadcastIP : GoString
  SubDevices : List SubDevice
  PingMode : GoString
  deriving DecidableEq, Repr

/-- The errors of the registry, one constructor per error message, and the
error of `saveInternal`. -/
inductive StoreError where
  /-- Message "invalid MAC address: " + mac. -/
  | invalidMAC (mac : GoString)
  /-- Message "invalid IP or Hostname: " + ip. -/
  | invalidHost (ip : GoString)
  /-- Message "invalid port number". -/
  | invalidPort
  /-- Message "invalid broadcast IP: " + ip. -/
  | invalidBroadcastIP (ip : GoString)
  /-- Message "device name is required". -/
  | nameRequired
  /-- Message "device with this name already exists". -/
  | alreadyExists
  /-- Message "device count mismatch". -/
  | countMismatch
  /-- Message "device not found: " + name. -/
  | notFoundNamed (name : GoString)
  /-- Message "device not found". -/
  | notFound
  /-- An error of `json.MarshalIndent` or `os.WriteFile` in `saveInternal`. -/
  | persistence
  deriving DecidableEq, Repr

/-- Function `SubDevice.Validate`. -/
def SubDevice.Validate (ParseIP : GoString → Option (List Nat)) (sd : SubDevice) :
    Option StoreError :=
  if !isValidMAC sd.MAC then some (.invalidMAC sd.MAC)
  else if !isValidHostOrIP ParseIP sd.IP then some (.invalidHost sd.IP)
  else if sd.Port < 1 ∨ sd.Port > 65535 then some .invalidPort
  else if sd.BroadcastIP ≠ [] ∧ !isValidIP ParseIP sd.BroadcastIP then
    some (.invalidBroadcastIP sd.BroadcastIP)
  else none

/-- Function `Device.Validate`: the name is required; a group validates each
sub-device in order and returns the first error; a single device validates
its own fields as one sub-device. -/
def Device.Validate (ParseIP : GoString → Option (List Nat)) (d : Device) :
    Option StoreError :=
  if d.Name = [] then some .nameRequired
  else if d.SubDevices.length > 0 then
    d.SubDevices.findSome? (SubDevice.Validate ParseIP)
  else
    SubDevice.Validate ParseIP
      { MAC := d.MAC, IP := d.IP, Port := d.Port, BroadcastIP := d.BroadcastIP, Remark := [] }

/-! ## The device registry (`storage/storage.go`) -/

/-- The `Store`, without its lock. -/
structure Store where
  filename : GoString
  Port : Int
  LogDir : GoString
  LogRetentionDays : Int
  Devices : List Device
  deriving DecidableEq, Repr

/-- The store `NewStore` builds before loading the file: the defaults and no
device. -/
def Store.init (filename : GoString) : Store :=
  { filename := filename, Port := 8888, LogDir := str "./logs", LogRetentionDays := 3,
    Devices := [] }

/-- Function `saveInternal`: the snapshot is written; whether writing succeeds is the
input `saveOk`. -/
def Store.saveInternal (_s : Store) (saveOk : Bool) : Option StoreError :=
  if saveOk then none else some .persistence

/-- The clearing of the single-target fields of a group, as `AddDevice` and
`UpdateDevice` do it. -/
def clearTopLevel (d : Device) : Device :=
  if d.SubDevices.length > 0 then
    { d with MAC := [], IP := [], Port := 0, BroadcastIP := [] }
  else d

/-- Function `Store.AddDevice`: the new store and the returned error. -/
def Store.AddDevice (ParseIP : GoString → Option (List Nat)) (s : Store) (d : Device)
    (saveOk : Bool) : Store × Option StoreError :=
  match d.Validate ParseIP with
  | some err => (s, some err)
  | none =>
    let d := clearTopLevel d
    if s.Devices.any (fun dev => dev.Name = d.Name) then (s, some .alreadyExists)
    else
      let s := { s with Devices := s.Devices ++ [d] }
      (s, s.saveInternal saveOk)

/-- A Go `map[string]Device`. -/
abbrev DeviceMap := GoString → Option Device

/-- The assignment `m[k] = d`. -/
def DeviceMap.set (m : DeviceMap) (k : GoString) (d : Device) : DeviceMap :=
  fun k2 => if k2 = k then some d else m k2

/-- The first loop of `ReorderDevices`: `deviceMap[d.Name] = d` for every
device in order. -/
def buildDeviceMap (devices : List Device) : DeviceMap :=
  devices.foldl (fun m d => m.set d.Name d) (fun _ => none)

/-- The second loop of `ReorderDevices`: each name is looked up and its device
appended; the first unknown name stops the loop with an error. -/
def reorderLoop (deviceMap : DeviceMap) :
    List GoString → List Device → Except StoreError (List Device)
  | [], newDevices => .ok newDevices
  | name :: names, newDevices =>
    match deviceMap name with
    | some d => reorderLoop deviceMap names (newDevices ++ [d])
    | none => .error (.notFoundNamed name)

/-- Function `Store.ReorderDevices`. -/
def Store.ReorderDevices (s : Store) (names : List GoString) (saveOk : Bool) :
    Store × Option StoreError :=
  if names.length ≠ s.Devices.length then (s, some .countMismatch)
  else
    let deviceMap := buildDeviceMap s.Devices
    match reorderLoop deviceMap names [] with
    | .error err => (s, some err)
    | .ok newDevices =>
      let s := { s with Devices := newDevices }
      (s, s.saveInternal saveOk)

/-- The last loop of `UpdateDevice`: the first device named `oldName` is
overwritten with `d`; `none` when the loop ends without a match. -/
def replaceFirst (oldName : GoString) (d : Device) : List Device → Option (List Device)
  | [] => none
  | dev :: devices =>
    if dev.Name = oldName then some (d :: devices)
    else (replaceFirst oldName d devices).map (fun ds => dev :: ds)

/-- Function `Store.UpdateDevice`. -/
def Store.UpdateDevice (ParseIP : GoString → Option (List Nat)) (s : Store)
    (oldName : GoString) (d : Device) (saveOk : Bool) : Store × Option StoreError :=
  match d.Validate ParseIP with
  | some err => (s, some err)
  | none =>
    let d := clearTopLevel d
    if oldName ≠ d.Name ∧ s.Devices.any (fun dev => dev.Name = d.Name) then
      (s, some .alreadyExists)
    else
      match replaceFirst oldName d s.Devices with
      | some devices =>
        let s := { s with Devices := devices }
        (s, s.saveInternal saveOk)
      | none => (s, some .notFound)

/-- The loop of `DeleteDevice`: the devices with another name, in order, and
whether a device with the name was seen. -/
def deleteLoop (name : GoString) (devices : List Device) : List Device × Bool :=
  devices.foldl
    (fun (acc : List Device × Bool) d =>
      if d.Name ≠ name then (acc.1 ++ [d], acc.2) else (acc.1, true))
    ([], false)

/-- Function `Store.DeleteDevice`. -/
def Store.DeleteDevice (s : Store) (name : GoString) (saveOk : Bool) :
    Store × Option StoreError :=
  let (newDevices, found) := deleteLoop name s.Devices
  if !found then (s, some .notFound)
  else
    let s := { s with Devices := newDevices }
    (s, s.saveInternal saveOk)

/-- A mutating call on the registry. -/
inductive Op where
  | add (d : Device)
  | update (oldName : GoString) (d : Device)
  | delete (name : GoString)
  | reorder (names : List GoString)
  deriving Repr

/-- One call: the new store and the returned error. -/
def Store.step (ParseIP : GoString → Option (List Nat)) (s : Store) (op : Op) (saveOk : Bool) :
    Store × Option StoreError :=
  match op with
  | .add d => s.AddDevice ParseIP d saveOk
  | .update oldName d => s.UpdateDevice ParseIP oldName d saveOk
  | .delete name => s.DeleteDevice name saveOk
  | .reorder names => s.ReorderDevices names saveOk

/-- A sequence of calls, each with the outcome of its write, applied in order;
the store after the last one. -/
def Store.run (ParseIP : GoString → Option (List Nat)) (s : Store) (calls : List (Op × Bool)) :
    Store :=
  calls.foldl (fun s c => (s.step ParseIP c.1 c.2).1) s

/-- A sequence of `AddDevice` calls applied in order. -/
def Store.addAll (ParseIP : GoString → Option (List Nat)) (s : Store)
    (calls : List (Device × Bool)) : Store :=
  calls.foldl (fun s c => (s.AddDevice ParseIP c.1 c.2).1) s

/-- No two devices of the sequence have the same name. -/
def UniqueNames (devices : List Device) : Prop :=
  devices.Pairwise (fun a b => a.Name ≠ b.Name)

/-- A dotted-decimal IPv4 literal `a.b.c.d`, each field 0..255 without a
leading zero: the IPv4 part of `net.ParseIP`, used for the worked examples. -/
def parseIPv4 (s : GoString) : Option (List Nat) :=
  let fields := splitOnByte 46 s
  if fields.length ≠ 4 then none
  else
    fields.mapM (fun f =>
      if f = [] ∨ f.length > 3 ∨ (f.length > 1 ∧ f.head? = some 48) then none
      else if f.all (fun c => 48 ≤ c && c ≤ 57) then
        let v := f.foldl (fun v c => v * 10 + (c - 48)) 0
        if v > 255 then none else some v
      else none)

/-- The calls the registry rejects before touching its state: `AddDevice` with
a device that fails `Validate` or whose name is taken; `UpdateDevice` with a
device that fails `Validate`, with a new name that differs from `oldName` and
is taken, or with an `oldName` that no device has; `DeleteDevice` with a name
that no device has; `ReorderDevices` with a list of the wrong length or with a
name that no device has. -/
def Rejected (ParseIP : GoString → Option (List Nat)) (s : Store) : Op → Prop
  | .add d => d.Validate ParseIP ≠ none ∨ ∃ dev ∈ s.Devices, dev.Name = d.Name
  | .update oldName d =>
    d.Validate ParseIP ≠ none ∨
    (d.Name ≠ oldName ∧ ∃ dev ∈ s.Devices, dev.Name = d.Name) ∨
    ∀ dev ∈ s.Devices, dev.Name ≠ oldName
  | .delete name => ∀ dev ∈ s.Devices, dev.Name ≠ name
  | .reorder names =>
    names.length ≠ s.Devices.length ∨ ∃ n ∈ names, ∀ dev ∈ s.Devices, dev.Name ≠ n

/-- The invariant of a stored group: a device with sub-devices has its
single-target fields cleared. -/
def GroupCleared (d : Device) : Prop :=
  d.SubDevices ≠ [] → d.MAC = [] ∧ d.IP = [] ∧ d.Port = 0 ∧ d.BroadcastIP = []

/-- A single-target device, for the worked examples. -/
def pcA : Device :=
  { Name := str "pc-a", MAC := str "AA:BB:CC:DD:EE:01", IP := [], Port := 9,
    BroadcastIP := [], SubDevices := [], PingMode := [] }

/-- A second single-target device. -/
def pcB : Device :=
  { Name := str "pc-b", MAC := str "aa-bb-cc-dd-ee-02", IP := str "192.168.1.50", Port := 7,
    BroadcastIP := str "192.168.1.255", SubDevices := [], PingMode := [] }

/-- A third single-target device. -/
def pcC : Device :=
  { Name := str "pc-c", MAC := str "AA:BB:CC:DD:EE:03", IP := str "nas.local", Port := 9,
    BroadcastIP := [], SubDevices := [], PingMode := [] }

/-- A group that also carries top-level single-target fields. -/
def lab : Device :=
  { Name := str "lab", MAC := str "AA:BB:CC:DD:EE:FF", IP := str "192.168.1.60", Port := 9,
    BroadcastIP := str "192.168.1.255",
    SubDevices :=
      [{ MAC := str "AA:BB:CC:DD:EE:10", IP := [], Port := 9, BroadcastIP := [], Remark := [] },
       { MAC := str "AA:BB:CC:DD:EE:11", IP := str "192.168.1.61", Port := 9,
         BroadcastIP := str "192.168.1.255", Remark := str "desk" }],
    PingMode := str "any" }

/-- The registry holding `pcA` and `pcB`, in this order. -/
def storeAB : Store :=
  (Store.init (str "wol.json")).addAll parseIPv4 [(pcA, true), (pcB, true)]


/-! ## The resolver, as the specification words it -/

/-- The interface is up and is not a loopback interface. -/
def usable (i : Interface) : Bool :=
  decide (i.Flags &&& FlagUp ≠ 0) && decide (i.Flags &&& FlagLoopback = 0)

/-- The IPv4 addresses of an interface, each with the mask of its network:
the addresses `net.ParseCIDR` parses and `To4` maps to four bytes. -/
def ipv4Addrs (i : Interface) : List (List Nat × List Nat) :=
  match i.Addrs with
  | none => []
  | some addrs =>
    addrs.filterMap (fun addr =>
      match addr with
      | none => none
      | some c => (To4 c.ip).map (fun ip4 => (ip4, c.mask)))

/-- The IPv4 addresses, with their masks, of the interfaces that are up and not
loopback, in the order of enumeration. -/
def usableIPv4 (ifaces : List Interface) : List (List Nat × List Nat) :=
  (ifaces.filter usable).flatMap ipv4Addrs

/-- The broadcast address of the address `ip` under the mask `m`: the four
octets `ip[k] OR (255 - m[k])`. -/
def broadcastSpec (ip m : List Nat) : List Nat :=
  [ip.getD 0 0 ||| (255 - m.getD 0 0), ip.getD 1 0 ||| (255 - m.getD 1 0),
   ip.getD 2 0 ||| (255 - m.getD 2 0), ip.getD 3 0 ||| (255 - m.getD 3 0)]

/-- An interface that is up (flags up, broadcast, multicast) with the one
address `192.168.1.50/24`. -/
def lanInterface : Interface :=
  { Flags := 19, Addrs := some [some { ip := [192, 168, 1, 50], mask := [255, 255, 255, 0] }] }

/-- An interface that is up with two addresses of the same subnet,
`192.168.1.50/24` and `192.168.1.51/24`. -/
def twoInSubnet : Interface :=
  { Flags := 19,
    Addrs := some
      [some { ip := [192, 168, 1, 50], mask := [255, 255, 255, 0] },
       some { ip := [192, 168, 1, 51], mask := [255, 255, 255, 0] }] }

/-! ## The MAC forms, as the specification words them -/

/-- The form `xx:xx:..:xx`: `n` two-hex-digit octets separated by the byte
`sep` throughout. -/
def octetForm (sep : Nat) : Nat → GoString → Bool
  | 0, _ => false
  | 1, s =>
    match s with
    | [a, b] => isHexDigit a && isHexDigit b
    | _ => false
  | n + 2, s =>
    match s with
    | a :: b :: c :: rest =>
      isHexDigit a && isHexDigit b && decide (c = sep) && octetForm sep (n + 1) rest
    | _ => false

/-- The form `xxxx.xxxx...xxxx`: `n` four-hex-digit groups separated by the
byte `sep` throughout. -/
def groupForm (sep : Nat) : Nat → GoString → Bool
  | 0, _ => false
  | 1, s =>
    match s with
    | [a, b, c, d] => isHexDigit a && isHexDigit b && isHexDigit c && isHexDigit d
    | _ => false
  | n + 2, s =>
    match s with
    | a :: b :: c :: d :: e :: rest =>
      isHexDigit a && isHexDigit b && isHexDigit c && isHexDigit d && decide (e = sep) &&
        groupForm sep (n + 1) rest
    | _ => false

/-- The form `xxxxxxxxxxxx`: `n` two-hex-digit octets with no separator. -/
def plainForm (n : Nat) (s : GoString) : Bool :=
  decide (s.length = 2 * n) && s.all isHexDigit

/-- An 8- or 20-octet form: 8 or 20 two-hex-digit octets separated by `:`
throughout or by `-` throughout, 4 or 10 four-hex-digit groups separated by
`.`, or 16 or 40 hex digits with no separator. -/
def isLongForm (s : GoString) : Bool :=
  [8, 20].any (fun n =>
    octetForm 58 n s || octetForm 45 n s || groupForm 46 (n / 2) s || plainForm n s)

/-! ## The wake handler (`main.go`) -/

/-- Function `Store.GetDevice`: the first device with the name, `none` when
there is none. -/
def Store.GetDevice (s : Store) (name : GoString) : Option Device :=
  s.Devices.find? (fun d => d.Name = name)

/-- One call of `wol.Wake` by the handler: its arguments, what it did and the
error it returned. -/
structure WakeCall where
  macAddr : GoString
  broadcastIP : GoString
  port : Int
  events : List Event
  err : Option WolError
  deriving DecidableEq, Repr

/-- The text of the HTTP response of `handleWake`, one constructor per
message. -/
inductive Body where
  /-- Message "Invalid name encoding". -/
  | invalidEncoding
  /-- Message "Device not found". -/
  | deviceNotFound
  /-- Message "Group wake completed with %d errors", with `len(errs)`. -/
  | groupErrors (n : Nat)
  /-- Message "Group wake completed". -/
  | groupCompleted
  /-- Message "Failed to send WOL packet: %v", with the error of `Wake`. -/
  | failed (err : WolError)
  /-- Message "Magic packets sent to %s:%d". -/
  | sent (targetDesc : GoString) (port : Int)
  deriving DecidableEq, Repr

/-- The HTTP response: status code and text. -/
structure Response where
  status : Nat
  body : Body
  deriving DecidableEq, Repr

/-- The call `wol.Wake(sub.MAC, sub.BroadcastIP, targetPort)` of the group
loop, where `targetPort` is `sub.Port`, or 9 when that is 0. -/
def wakeSub (net : Network) (sub : SubDevice) : WakeCall :=
  let targetPort := if sub.Port = 0 then 9 else sub.Port
  let r := Wake net sub.MAC sub.BroadcastIP targetPort
  { macAddr := sub.MAC, broadcastIP := sub.BroadcastIP, port := targetPort,
    events := r.1, err := r.2 }

/-- The loop of `handleWake` over the sub-devices of a group: `Wake` is called
for each one in order, and the error of a failed call is appended to `errs`
(as the triple from which the message "Device %d (%s): %v" is formatted).
`net i` is the outside world at the call for index `i`. -/
def groupLoop (net : Nat → Network) (subDevices : List SubDevice) :
    List WakeCall × List (Nat × GoString × WolError) :=
  subDevices.foldl
    (fun (acc : List WakeCall × List (Nat × GoString × WolError)) sub =>
      let i := acc.1.length
      let call := wakeSub (net i) sub
      match call.err with
      | some err => (acc.1 ++ [call], acc.2 ++ [(i + 1, sub.MAC, err)])
      | none => (acc.1 ++ [call], acc.2))
    ([], [])

/-- Function `handleWake`, from the result of `url.QueryUnescape` on the name in
the path (`none` when it fails): the response and the calls of `Wake` made.
The calls of the logger are left out. -/
def handleWake (net : Nat → Network) (store : Store) (decodedName : Option GoString) :
    Response × List WakeCall :=
  match decodedName with
  | none => ({ status := 400, body := .invalidEncoding }, [])
  | some decodedName =>
    match store.GetDevice decodedName with
    | none => ({ status := 404, body := .deviceNotFound }, [])
    | some device =>
      let targetPort := if device.Port = 0 then 9 else device.Port
      if device.SubDevices.length > 0 then
        let (calls, errs) := groupLoop net device.SubDevices
        if errs.length > 0 then ({ status := 200, body := .groupErrors errs.length }, calls)
        else ({ status := 200, body := .groupCompleted }, calls)
      else
        let targetDesc :=
          if device.BroadcastIP = [] then str "all interfaces" else device.BroadcastIP
        let r := Wake (net 0) device.MAC device.BroadcastIP targetPort
        let call : WakeCall :=
          { macAddr := device.MAC, broadcastIP := device.BroadcastIP, port := targetPort,
            events := r.1, err := r.2 }
        match r.2 with
        | some err => ({ status := 500, body := .failed err }, [call])
        | none => ({ status := 200, body := .sent targetDesc targetPort }, [call])

/-- The calls of the group loop, listed: the call for the sub-device at index
`i` sees the outside world `net (k + i)`. -/
def callsFrom (net : Nat → Network) (k : Nat) : List SubDevice → List WakeCall
  | [] => []
  | sub :: rest => wakeSub (net k) sub :: callsFrom net (k + 1) rest

/-- The number of calls that returned an error. -/
def errorCount (calls : List WakeCall) : Nat :=
  (calls.filter (fun c => c.err.isSome)).length

/-- The sub-device's MAC cannot be built into a packet. -/
def badMAC (sub : SubDevice) : Bool :=
  match NewMagicPacket sub.MAC with
  | .error _ => true
  | .ok _ => false

/-- Target resolution succeeds for the call on `sub`: a `BroadcastIP` is
given, or the resolver returns its list. -/
def Resolves (net : Network) (sub : SubDevice) : Prop :=
  sub.BroadcastIP = [] → ∃ addrs, getBroadcastAddresses net.Interfaces = .ok addrs

/-- A group of three sub-devices, all accepted by `Validate`; the second one
has an 8-octet MAC. -/
def trio : Device :=
  { Name := str "trio", MAC := [], IP := [], Port := 0, BroadcastIP := [],
    SubDevices :=
      [{ MAC := str "AA:BB:CC:DD:EE:10", IP := [], Port := 9, BroadcastIP := [], Remark := [] },
       { MAC := str "AA:BB:CC:DD:EE:11:22:33", IP := [], Port := 7,
         BroadcastIP := str "192.168.1.255", Remark := [] },
       { MAC := str "aabb.ccdd.ee12", IP := [], Port := 9,
         BroadcastIP := str "10.0.0.255", Remark := [] }],
    PingMode := [] }

/-- The registry holding `pcA`, `pcB` and `trio`. -/
def storeTrio : Store :=
  (storeAB.AddDevice parseIPv4 trio true).1

/-! ## Theorems: the magic packet -/

theorem list_length_six {α : Type} (l : List α) (h : l.length = 6) :
    ∃ a b c d e f, l = [a, b, c, d, e, f] := by
  match l, h with
  | [a, b, c, d, e, f], _ => exact ⟨a, b, c, d, e, f, rfl⟩

/-- The packet built from six MAC bytes. -/
theorem fill_six (a b c d e f : Nat) :
    (List.range 16).foldl (fun packet i => copyAt packet (6 + i * 6) [a, b, c, d, e, f])
      (copyAt zeroPacket 0 [0xFF, 0xFF, 0xFF, 0xFF, 0xFF, 0xFF]) =
    List.replicate 6 255 ++ (List.replicate 16 [a, b, c, d, e, f]).flatten := by
  simp [List.range, List.range.loop, copyAt, zeroPacket, List.replicate]

theorem NewMagicPacket_ok_iff (macAddr : GoString) (p : List Nat) :
    NewMagicPacket macAddr = .ok p ↔
      ∃ a b c d e f,
        DecodeString (stripDelimiters macAddr) = .ok [a, b, c, d, e, f] ∧
        p = List.replicate 6 255 ++ (List.replicate 16 [a, b, c, d, e, f]).flatten := by
  unfold NewMagicPacket stripDelimiters
  simp only []
  cases hd : DecodeString (ReplaceAll (ReplaceAll (ReplaceAll macAddr 58) 45) 46) with
  | error e => simp
  | ok macBytes =>
    simp only []
    by_cases hl : macBytes.length = 6
    · obtain ⟨a, b, c, d, e, f, rfl⟩ := list_length_six macBytes hl
      rw [if_neg (by simp)]
      rw [fill_six]
      constructor
      · intro h
        injection h with h
        exact ⟨a, b, c, d, e, f, rfl, h.symm⟩
      · rintro ⟨a', b', c', d', e', f', h1, h2⟩
        injection h1 with h1
        rw [h2, ← h1]
    · rw [if_pos hl]
      constructor
      · intro h; cases h
      · rintro ⟨a', b', c', d', e', f', h1, -⟩
        injection h1 with h1
        rw [h1] at hl
        exact absurd rfl hl

theorem macGroup_packet (a b c d e f : Nat) (i : Nat) (hi : i < 16) :
    macGroup (List.replicate 6 255 ++ (List.replicate 16 [a, b, c, d, e, f]).flatten) i
      = [a, b, c, d, e, f] := by
  interval_cases i <;> rfl

theorem sync_packet (a b c d e f : Nat) (j : Nat) (hj : j < 6) :
    (List.replicate 6 255 ++ (List.replicate 16 [a, b, c, d, e, f]).flatten)[j]? = some 0xFF := by
  interval_cases j <;> rfl

/-- C1. Whenever `NewMagicPacket` succeeds, the packet has 102 bytes, bytes
0..5 are `0xFF`, and each of the 16 six-byte groups at offsets `6+6i` is the
hex decoding of the MAC string with `:`, `-`, `.` removed; for
`"AA:BB:CC:DD:EE:FF"` every group is `[0xAA,0xBB,0xCC,0xDD,0xEE,0xFF]`. -/
theorem NewMagicPacket_layout (macAddr : GoString) (p : List Nat)
    (h : NewMagicPacket macAddr = .ok p) :
    p.length = 102 ∧
    (∀ j, j < 6 → p[j]? = some 0xFF) ∧
    (∃ macBytes, DecodeString (stripDelimiters macAddr) = .ok macBytes ∧
      macBytes.length = 6 ∧ ∀ i, i < 16 → macGroup p i = macBytes) ∧
    (macAddr = str "AA:BB:CC:DD:EE:FF" →
      ∀ i, i < 16 → macGroup p i = [0xAA, 0xBB, 0xCC, 0xDD, 0xEE, 0xFF]) := by
  obtain ⟨a, b, c, d, e, f, hd, rfl⟩ := (NewMagicPacket_ok_iff macAddr p).1 h
  refine ⟨rfl, sync_packet a b c d e f, ⟨_, hd, rfl, macGroup_packet a b c d e f⟩, ?_⟩
  rintro rfl i hi
  have hd2 : DecodeString (stripDelimiters (str "AA:BB:CC:DD:EE:FF"))
      = .ok [0xAA, 0xBB, 0xCC, 0xDD, 0xEE, 0xFF] := by decide
  rw [hd2] at hd
  injection hd with hd
  rw [macGroup_packet a b c d e f i hi, ← hd]

/-- Witness for C1: the packet of `"AA:BB:CC:DD:EE:FF"`. -/
theorem NewMagicPacket_layout_witness :
    NewMagicPacket (str "AA:BB:CC:DD:EE:FF") =
        .ok (List.replicate 6 255 ++
          (List.replicate 16 [0xAA, 0xBB, 0xCC, 0xDD, 0xEE, 0xFF]).flatten) ∧
    ∀ i, i < 16 →
      macGroup (List.replicate 6 255 ++
          (List.replicate 16 [0xAA, 0xBB, 0xCC, 0xDD, 0xEE, 0xFF]).flatten) i
        = [0xAA, 0xBB, 0xCC, 0xDD, 0xEE, 0xFF] :=
  ⟨by decide, (NewMagicPacket_layout (str "AA:BB:CC:DD:EE:FF") _ (by decide)).2.2.2 rfl⟩

/-! ### When `NewMagicPacket` fails -/

theorem fromHexChar_isSome (c : Nat) : (fromHexChar c).isSome = isHexDigit c := by
  unfold fromHexChar isHexDigit
  split_ifs with h1 h2 h3 <;> simp <;> omega

theorem fromHexChar_eq_none (c : Nat) : fromHexChar c = none ↔ isHexDigit c = false := by
  rw [← fromHexChar_isSome]
  cases fromHexChar c <;> simp

/-- A successful decoding consumed an even number of bytes, all of them
hexadecimal digits, and produced half as many bytes. -/
theorem DecodeString_ok : ∀ (s : GoString) (bs : List Nat), DecodeString s = .ok bs →
    s.length = 2 * bs.length ∧ ∀ c ∈ s, isHexDigit c = true
  | [], bs, h => by
    simp [DecodeString] at h; subst h; simp
  | [p], bs, h => by
    unfold DecodeString at h
    cases hp : fromHexChar p <;> simp [hp] at h
  | p :: q :: rest, bs, h => by
    unfold DecodeString at h
    cases hp : fromHexChar p with
    | none => simp [hp] at h
    | some a =>
      cases hq : fromHexChar q with
      | none => simp [hp, hq] at h
      | some b =>
        cases hr : DecodeString rest with
        | error e => simp [hp, hq, hr] at h
        | ok bs0 =>
          simp [hp, hq, hr] at h
          subst h
          obtain ⟨hl, hall⟩ := DecodeString_ok rest bs0 hr
          refine ⟨by simp [hl]; omega, ?_⟩
          intro c hc
          simp only [List.mem_cons] at hc
          rcases hc with rfl | rfl | hc
          · rw [← fromHexChar_isSome, hp]; rfl
          · rw [← fromHexChar_isSome, hq]; rfl
          · exact hall c hc

/-- An even number of hexadecimal digits always decodes. -/
theorem DecodeString_complete : ∀ (n : Nat) (s : GoString), s.length = 2 * n →
    (∀ c ∈ s, isHexDigit c = true) → ∃ bs, DecodeString s = .ok bs ∧ bs.length = n
  | 0, s, hl, _ => by
    have : s = [] := List.length_eq_zero.mp (by omega)
    subst this
    exact ⟨[], rfl, rfl⟩
  | n + 1, s, hl, hall => by
    match s, hl, hall with
    | p :: q :: rest, hl, hall =>
      have hp : (fromHexChar p).isSome = true := by
        rw [fromHexChar_isSome]; exact hall p (by simp)
      have hq : (fromHexChar q).isSome = true := by
        rw [fromHexChar_isSome]; exact hall q (by simp)
      obtain ⟨a, ha⟩ := Option.isSome_iff_exists.mp hp
      obtain ⟨b, hb⟩ := Option.isSome_iff_exists.mp hq
      obtain ⟨bs, hbs, hlen⟩ := DecodeString_complete n rest (by simp at hl; omega)
        (fun c hc => hall c (by simp [hc]))
      exact ⟨((a <<< 4) ||| b) :: bs, by simp [DecodeString, ha, hb, hbs], by simp [hlen]⟩

theorem DecodeString_ok_iff (s : GoString) (n : Nat) :
    (∃ bs, DecodeString s = .ok bs ∧ bs.length = n) ↔
      s.length = 2 * n ∧ ∀ c ∈ s, isHexDigit c = true := by
  constructor
  · rintro ⟨bs, h, rfl⟩
    exact DecodeString_ok s bs h
  · rintro ⟨hl, hall⟩
    exact DecodeString_complete n s hl hall

/-- The three `ReplaceAll` calls leave exactly the bytes that are none of `:`,
`-`, `.`, in order. -/
theorem stripDelimiters_eq_filter (macAddr : GoString) :
    stripDelimiters macAddr = macAddr.filter (fun b => b ≠ 58 ∧ b ≠ 45 ∧ b ≠ 46) := by
  unfold stripDelimiters ReplaceAll
  rw [List.filter_filter, List.filter_filter]
  apply List.filter_congr
  intro b _
  by_cases h1 : b = 58 <;> by_cases h2 : b = 45 <;> by_cases h3 : b = 46 <;> simp [h1, h2, h3]

/-- C2. `NewMagicPacket` returns an error exactly when the MAC string with
`:`, `-`, `.` removed fails to hex-decode or decodes to a number of bytes
other than 6; it succeeds exactly when that string consists of exactly 12
hexadecimal digits. -/
theorem NewMagicPacket_error_iff (macAddr : GoString) :
    stripDelimiters macAddr = macAddr.filter (fun b => b ≠ 58 ∧ b ≠ 45 ∧ b ≠ 46) ∧
    ((∃ e, NewMagicPacket macAddr = .error e) ↔
      ((∃ e, DecodeString (stripDelimiters macAddr) = .error e) ∨
        ∃ bs, DecodeString (stripDelimiters macAddr) = .ok bs ∧ bs.length ≠ 6)) ∧
    ((∃ p, NewMagicPacket macAddr = .ok p) ↔
      ((stripDelimiters macAddr).length = 12 ∧
        ∀ c ∈ stripDelimiters macAddr, isHexDigit c = true)) := by
  refine ⟨stripDelimiters_eq_filter macAddr, ?_, ?_⟩
  · unfold NewMagicPacket stripDelimiters
    simp only []
    cases hd : DecodeString (ReplaceAll (ReplaceAll (ReplaceAll macAddr 58) 45) 46) with
    | error e => simp
    | ok macBytes =>
      by_cases hl : macBytes.length = 6
      · simp [hl]
      · simp [hl]
  · rw [← DecodeString_ok_iff (stripDelimiters macAddr) 6]
    constructor
    · rintro ⟨p, hp⟩
      obtain ⟨a, b, c, d, e, f, hd, -⟩ := (NewMagicPacket_ok_iff macAddr p).1 hp
      exact ⟨_, hd, rfl⟩
    · rintro ⟨bs, hbs, hl⟩
      obtain ⟨a, b, c, d, e, f, rfl⟩ := list_length_six bs hl
      exact ⟨_, (NewMagicPacket_ok_iff macAddr _).2 ⟨a, b, c, d, e, f, hbs, rfl⟩⟩

/-! ## Theorems: the device registry -/

theorem any_name_eq_false {devices : List Device} {n : GoString}
    (h : devices.any (fun dev => dev.Name = n) = false) :
    ∀ dev ∈ devices, dev.Name ≠ n := by
  intro dev hdev heq
  have : devices.any (fun dev => dev.Name = n) = true :=
    List.any_eq_true.mpr ⟨dev, hdev, by simpa using heq⟩
  rw [h] at this
  cases this

theorem any_name_eq_true {devices : List Device} {n : GoString}
    (h : devices.any (fun dev => dev.Name = n) = true) :
    ∃ dev ∈ devices, dev.Name = n := by
  obtain ⟨dev, hdev, heq⟩ := List.any_eq_true.mp h
  exact ⟨dev, hdev, by simpa using heq⟩

theorem clearTopLevel_Name (d : Device) : (clearTopLevel d).Name = d.Name := by
  unfold clearTopLevel
  split <;> rfl

/-- What `AddDevice` does, case by case. -/
theorem AddDevice_cases (ParseIP : GoString → Option (List Nat)) (s : Store) (d : Device)
    (saveOk : Bool) :
    (∃ err, d.Validate ParseIP = some err ∧ s.AddDevice ParseIP d saveOk = (s, some err)) ∨
    (d.Validate ParseIP = none ∧ (∃ dev ∈ s.Devices, dev.Name = d.Name) ∧
      s.AddDevice ParseIP d saveOk = (s, some .alreadyExists)) ∨
    (d.Validate ParseIP = none ∧ (∀ dev ∈ s.Devices, dev.Name ≠ d.Name) ∧
      s.AddDevice ParseIP d saveOk =
        ({ s with Devices := s.Devices ++ [clearTopLevel d] },
          if saveOk then none else some .persistence)) := by
  unfold Store.AddDevice
  cases hv : d.Validate ParseIP with
  | some err => exact Or.inl ⟨err, rfl, rfl⟩
  | none =>
    right
    simp only []
    cases ha : s.Devices.any (fun dev => dev.Name = (clearTopLevel d).Name) with
    | true =>
      left
      have := any_name_eq_true ha
      rw [clearTopLevel_Name] at this
      exact ⟨trivial, this, by simp⟩
    | false =>
      right
      have := any_name_eq_false ha
      rw [clearTopLevel_Name] at this
      exact ⟨trivial, this, by simp [Store.saveInternal]⟩

theorem AddDevice_unique (ParseIP : GoString → Option (List Nat)) (s : Store) (d : Device)
    (saveOk : Bool) (h : UniqueNames s.Devices) :
    UniqueNames (s.AddDevice ParseIP d saveOk).1.Devices := by
  rcases AddDevice_cases ParseIP s d saveOk with ⟨err, -, he⟩ | ⟨-, -, he⟩ | ⟨-, hn, he⟩
  · rw [he]; exact h
  · rw [he]; exact h
  · rw [he]
    unfold UniqueNames at *
    simp only []
    rw [List.pairwise_append]
    refine ⟨h, List.pairwise_singleton _ _, ?_⟩
    intro a ha b hb
    simp only [List.mem_singleton] at hb
    subst hb
    rw [clearTopLevel_Name]
    exact hn a ha

theorem addAll_unique (ParseIP : GoString → Option (List Nat))
    (calls : List (Device × Bool)) :
    ∀ s : Store, UniqueNames s.Devices → UniqueNames (s.addAll ParseIP calls).Devices := by
  induction calls with
  | nil => intro s h; exact h
  | cons c calls ih =>
    intro s h
    unfold Store.addAll
    rw [List.foldl_cons]
    exact ih _ (AddDevice_unique ParseIP s c.1 c.2 h)

/-- C3. Starting from the empty registry, after any sequence of `AddDevice`
calls (whatever each call returns, and whether or not each write succeeds) no
two devices of the registry have the same `Name`. -/
theorem AddDevice_names_unique (ParseIP : GoString → Option (List Nat)) (filename : GoString)
    (calls : List (Device × Bool)) :
    UniqueNames ((Store.init filename).addAll ParseIP calls).Devices :=
  addAll_unique ParseIP calls (Store.init filename) List.Pairwise.nil

/-! ### `ReorderDevices` -/

theorem foldl_set_some (devices : List Device) :
    ∀ (m : DeviceMap) (n : GoString) (d : Device),
      devices.foldl (fun m d => m.set d.Name d) m n = some d →
        (d ∈ devices ∧ d.Name = n) ∨ m n = some d := by
  induction devices with
  | nil => intro m n d h; exact Or.inr h
  | cons x xs ih =>
    intro m n d h
    rw [List.foldl_cons] at h
    rcases ih _ n d h with ⟨hm, hn⟩ | h2
    · exact Or.inl ⟨List.mem_cons_of_mem _ hm, hn⟩
    · unfold DeviceMap.set at h2
      by_cases hx : n = x.Name
      · rw [if_pos hx] at h2
        injection h2 with h2
        subst h2
        exact Or.inl ⟨List.mem_cons_self _ _, hx.symm⟩
      · rw [if_neg hx] at h2
        exact Or.inr h2

theorem foldl_set_none (devices : List Device) :
    ∀ (m : DeviceMap) (n : GoString),
      devices.foldl (fun m d => m.set d.Name d) m n = none ↔
        (m n = none ∧ ∀ dev ∈ devices, dev.Name ≠ n) := by
  induction devices with
  | nil => intro m n; simp
  | cons x xs ih =>
    intro m n
    rw [List.foldl_cons, ih]
    unfold DeviceMap.set
    by_cases hx : n = x.Name
    · subst hx; simp
    · have hx2 : x.Name ≠ n := fun h => hx h.symm
      simp [hx, hx2]

theorem buildDeviceMap_some {devices : List Device} {n : GoString} {d : Device}
    (h : buildDeviceMap devices n = some d) : d ∈ devices ∧ d.Name = n := by
  rcases foldl_set_some devices _ n d h with h | h
  · exact h
  · cases h

theorem buildDeviceMap_none (devices : List Device) (n : GoString) :
    buildDeviceMap devices n = none ↔ ∀ dev ∈ devices, dev.Name ≠ n := by
  unfold buildDeviceMap
  rw [foldl_set_none]
  simp

theorem reorderLoop_ok (m : DeviceMap) (names : List GoString) :
    ∀ (acc r : List Device), reorderLoop m names acc = .ok r →
      (∀ n ∈ names, m n ≠ none) ∧ r = acc ++ names.filterMap m := by
  induction names with
  | nil => intro acc r h; simp [reorderLoop] at h; simp [h]
  | cons n names ih =>
    intro acc r h
    unfold reorderLoop at h
    cases hn : m n with
    | none => simp [hn] at h
    | some d =>
      simp only [hn] at h
      obtain ⟨h1, h2⟩ := ih _ r h
      refine ⟨?_, ?_⟩
      · intro k hk
        rcases List.mem_cons.mp hk with rfl | hk
        · rw [hn]; simp
        · exact h1 k hk
      · rw [h2, List.filterMap_cons, hn]; simp

theorem reorderLoop_error (m : DeviceMap) (names : List GoString) :
    ∀ (acc : List Device) (err : StoreError), reorderLoop m names acc = .error err →
      ∃ n ∈ names, m n = none ∧ err = .notFoundNamed n := by
  induction names with
  | nil => intro acc err h; simp [reorderLoop] at h
  | cons n names ih =>
    intro acc err h
    unfold reorderLoop at h
    cases hn : m n with
    | none =>
      simp only [hn] at h
      injection h with h
      exact ⟨n, List.mem_cons_self _ _, hn, h.symm⟩
    | some d =>
      simp only [hn] at h
      obtain ⟨k, hk, h1, h2⟩ := ih _ err h
      exact ⟨k, List.mem_cons_of_mem _ hk, h1, h2⟩

theorem reorderLoop_complete (m : DeviceMap) (names : List GoString) :
    ∀ (acc : List Device), (∀ n ∈ names, m n ≠ none) →
      reorderLoop m names acc = .ok (acc ++ names.filterMap m) := by
  induction names with
  | nil => intro acc _; simp [reorderLoop]
  | cons n names ih =>
    intro acc h
    unfold reorderLoop
    cases hn : m n with
    | none => exact absurd hn (h n (List.mem_cons_self _ _))
    | some d =>
      simp only []
      rw [ih _ (fun k hk => h k (List.mem_cons_of_mem _ hk)), List.filterMap_cons, hn]
      simp

/-- What `ReorderDevices` does, case by case. -/
theorem ReorderDevices_cases (s : Store) (names : List GoString) (saveOk : Bool) :
    (names.length ≠ s.Devices.length ∧
      s.ReorderDevices names saveOk = (s, some .countMismatch)) ∨
    (names.length = s.Devices.length ∧
      ∃ n ∈ names, (∀ dev ∈ s.Devices, dev.Name ≠ n) ∧
        s.ReorderDevices names saveOk = (s, some (.notFoundNamed n))) ∨
    (names.length = s.Devices.length ∧
      (∀ n ∈ names, ∃ dev ∈ s.Devices, dev.Name = n) ∧
      s.ReorderDevices names saveOk =
        ({ s with Devices := names.filterMap (buildDeviceMap s.Devices) },
          if saveOk then none else some .persistence)) := by
  unfold Store.ReorderDevices
  by_cases hl : names.length = s.Devices.length
  · right
    rw [if_neg (by simpa using hl)]
    simp only []
    cases hr : reorderLoop (buildDeviceMap s.Devices) names [] with
    | error err =>
      left
      obtain ⟨n, hn, h1, h2⟩ := reorderLoop_error _ _ _ _ hr
      exact ⟨hl, n, hn, (buildDeviceMap_none _ _).1 h1, by rw [h2]⟩
    | ok newDevices =>
      right
      obtain ⟨h1, h2⟩ := reorderLoop_ok _ _ _ _ hr
      refine ⟨hl, ?_, ?_⟩
      · intro n hn
        by_contra hc
        push_neg at hc
        exact h1 n hn ((buildDeviceMap_none _ _).2 hc)
      · simp [h2, Store.saveInternal]
  · left
    rw [if_pos hl]
    exact ⟨hl, rfl⟩

theorem buildDeviceMap_of_unique (devices : List Device) (hu : UniqueNames devices)
    (d : Device) (hd : d ∈ devices) : buildDeviceMap devices d.Name = some d := by
  cases hm : buildDeviceMap devices d.Name with
  | none => exact absurd rfl ((buildDeviceMap_none devices d.Name).1 hm d hd)
  | some d2 =>
    obtain ⟨hd2, hn⟩ := buildDeviceMap_some hm
    by_cases he : d2 = d
    · rw [he]
    · have hsym : Symmetric (fun a b : Device => a.Name ≠ b.Name) := fun a b h => h.symm
      exact absurd hn (List.Pairwise.forall hsym hu hd2 hd he)

theorem filterMap_names (m : DeviceMap) (names : List GoString)
    (hall : ∀ n ∈ names, m n ≠ none) (hname : ∀ n d, m n = some d → d.Name = n) :
    (names.filterMap m).map Device.Name = names := by
  induction names with
  | nil => rfl
  | cons n names ih =>
    cases hn : m n with
    | none => exact absurd hn (hall n (List.mem_cons_self _ _))
    | some d =>
      rw [List.filterMap_cons, hn]
      simp only [List.map_cons]
      rw [ih (fun k hk => hall k (List.mem_cons_of_mem _ hk)), hname n d hn]

/-- On a registry with pairwise distinct names, a permutation of the stored
names is accepted and the devices are stored in the order of the list. -/
theorem ReorderDevices_of_perm (s : Store) (names : List GoString) (saveOk : Bool)
    (hu : UniqueNames s.Devices) (hp : names.Perm (s.Devices.map Device.Name)) :
    (s.ReorderDevices names saveOk).2 = (if saveOk then none else some .persistence) ∧
    (s.ReorderDevices names saveOk).1.Devices.map Device.Name = names ∧
    (s.ReorderDevices names saveOk).1.Devices.Perm s.Devices := by
  rcases ReorderDevices_cases s names saveOk with ⟨hl, -⟩ | ⟨-, n, hn, hnone, -⟩ | ⟨-, hall, he⟩
  · exact absurd (by simpa using hp.length_eq) hl
  · have : n ∈ s.Devices.map Device.Name := hp.subset hn
    obtain ⟨dev, hd, hdn⟩ := List.mem_map.mp this
    exact absurd hdn (hnone dev hd)
  · rw [he]
    refine ⟨rfl, ?_, ?_⟩
    · apply filterMap_names
      · intro n hn hc
        obtain ⟨dev, hd, hdn⟩ := hall n hn
        exact (buildDeviceMap_none _ _).1 hc dev hd hdn
      · intro n d hd
        exact (buildDeviceMap_some hd).2
    · have h1 : (names.filterMap (buildDeviceMap s.Devices)).Perm
          ((s.Devices.map Device.Name).filterMap (buildDeviceMap s.Devices)) :=
        hp.filterMap _
      have h2 : (s.Devices.map Device.Name).filterMap (buildDeviceMap s.Devices) = s.Devices := by
        rw [List.filterMap_map]
        have h3 : ∀ d ∈ s.Devices, (buildDeviceMap s.Devices ∘ Device.Name) d = some d :=
          fun d hd => buildDeviceMap_of_unique s.Devices hu d hd
        rw [List.filterMap_congr h3, List.filterMap_some]
      rw [h2] at h1
      exact h1

/-! ### `UpdateDevice` -/

theorem replaceFirst_none (oldName : GoString) (d : Device) (devices : List Device) :
    replaceFirst oldName d devices = none ↔ ∀ dev ∈ devices, dev.Name ≠ oldName := by
  induction devices with
  | nil => simp [replaceFirst]
  | cons x xs ih =>
    unfold replaceFirst
    by_cases hx : x.Name = oldName
    · simp [hx]
    · simp [hx, ih]

theorem replaceFirst_some (oldName : GoString) (d : Device) (devices : List Device) :
    ∀ r, replaceFirst oldName d devices = some r →
      ∃ pre x post, devices = pre ++ x :: post ∧ x.Name = oldName ∧
        (∀ y ∈ pre, y.Name ≠ oldName) ∧ r = pre ++ d :: post := by
  induction devices with
  | nil => intro r h; simp [replaceFirst] at h
  | cons x xs ih =>
    intro r h
    unfold replaceFirst at h
    by_cases hx : x.Name = oldName
    · rw [if_pos hx] at h
      injection h with h
      exact ⟨[], x, xs, rfl, hx, by simp, h.symm⟩
    · rw [if_neg hx] at h
      cases hr : replaceFirst oldName d xs with
      | none => simp [hr] at h
      | some r2 =>
        simp [hr] at h
        obtain ⟨pre, y, post, h1, h2, h3, h4⟩ := ih r2 hr
        refine ⟨x :: pre, y, post, by simp [h1], h2, ?_, by simp [← h, h4]⟩
        intro z hz
        rcases List.mem_cons.mp hz with rfl | hz
        · exact hx
        · exact h3 z hz

/-- What `UpdateDevice` does, case by case. -/
theorem UpdateDevice_cases (ParseIP : GoString → Option (List Nat)) (s : Store)
    (oldName : GoString) (d : Device) (saveOk : Bool) :
    (∃ err, d.Validate ParseIP = some err ∧
      s.UpdateDevice ParseIP oldName d saveOk = (s, some err)) ∨
    (d.Validate ParseIP = none ∧ oldName ≠ d.Name ∧ (∃ dev ∈ s.Devices, dev.Name = d.Name) ∧
      s.UpdateDevice ParseIP oldName d saveOk = (s, some .alreadyExists)) ∨
    (d.Validate ParseIP = none ∧ (oldName = d.Name ∨ ∀ dev ∈ s.Devices, dev.Name ≠ d.Name) ∧
      (∀ dev ∈ s.Devices, dev.Name ≠ oldName) ∧
      s.UpdateDevice ParseIP oldName d saveOk = (s, some .notFound)) ∨
    (d.Validate ParseIP = none ∧ (oldName = d.Name ∨ ∀ dev ∈ s.Devices, dev.Name ≠ d.Name) ∧
      ∃ pre x post, s.Devices = pre ++ x :: post ∧ x.Name = oldName ∧
        (∀ y ∈ pre, y.Name ≠ oldName) ∧
        s.UpdateDevice ParseIP oldName d saveOk =
          ({ s with Devices := pre ++ clearTopLevel d :: post },
            if saveOk then none else some .persistence)) := by
  unfold Store.UpdateDevice
  cases hv : d.Validate ParseIP with
  | some err => exact Or.inl ⟨err, rfl, rfl⟩
  | none =>
    right
    simp only [clearTopLevel_Name]
    by_cases hc : oldName ≠ d.Name ∧ s.Devices.any (fun dev => dev.Name = d.Name) = true
    · left
      rw [if_pos hc]
      exact ⟨trivial, hc.1, any_name_eq_true hc.2, rfl⟩
    · right
      rw [if_neg hc]
      have hc2 : oldName = d.Name ∨ ∀ dev ∈ s.Devices, dev.Name ≠ d.Name := by
        by_cases h1 : oldName = d.Name
        · exact Or.inl h1
        · right
          apply any_name_eq_false
          cases ha : s.Devices.any (fun dev => dev.Name = d.Name) with
          | true => exact absurd ⟨h1, ha⟩ hc
          | false => rfl
      cases hr : replaceFirst oldName (clearTopLevel d) s.Devices with
      | none =>
        left
        exact ⟨trivial, hc2, (replaceFirst_none _ _ _).1 hr, rfl⟩
      | some r =>
        right
        obtain ⟨pre, x, post, h1, h2, h3, h4⟩ := replaceFirst_some _ _ _ r hr
        exact ⟨trivial, hc2, pre, x, post, h1, h2, h3, by simp [h4, Store.saveInternal]⟩

/-! ### `DeleteDevice` -/

theorem deleteLoop_foldl (name : GoString) (devices : List Device) :
    ∀ (acc : List Device × Bool),
      devices.foldl
        (fun (acc : List Device × Bool) d =>
          if d.Name ≠ name then (acc.1 ++ [d], acc.2) else (acc.1, true)) acc
      = (acc.1 ++ devices.filter (fun d => d.Name ≠ name),
          acc.2 || devices.any (fun d => d.Name = name)) := by
  induction devices with
  | nil => intro acc; simp
  | cons x xs ih =>
    intro acc
    rw [List.foldl_cons, ih]
    by_cases hx : x.Name = name
    · simp [hx]
    · simp [hx]

theorem deleteLoop_eq (name : GoString) (devices : List Device) :
    deleteLoop name devices =
      (devices.filter (fun d => d.Name ≠ name), devices.any (fun d => d.Name = name)) := by
  unfold deleteLoop
  rw [deleteLoop_foldl]
  simp

/-- What `DeleteDevice` does, case by case. -/
theorem DeleteDevice_cases (s : Store) (name : GoString) (saveOk : Bool) :
    ((∀ dev ∈ s.Devices, dev.Name ≠ name) ∧
      s.DeleteDevice name saveOk = (s, some .notFound)) ∨
    ((∃ dev ∈ s.Devices, dev.Name = name) ∧
      s.DeleteDevice name saveOk =
        ({ s with Devices := s.Devices.filter (fun d => d.Name ≠ name) },
          if saveOk then none else some .persistence)) := by
  unfold Store.DeleteDevice
  rw [deleteLoop_eq]
  simp only []
  cases ha : s.Devices.any (fun d => d.Name = name) with
  | false => exact Or.inl ⟨any_name_eq_false ha, by simp⟩
  | true => exact Or.inr ⟨any_name_eq_true ha, by simp [Store.saveInternal]⟩

/-! ### The claims about the registry -/

/-- C4 (evaluation at the failing input). With the devices `pc-a`, `pc-b`
stored, `ReorderDevices ["pc-a", "pc-a"]` succeeds although the list is no
permutation of the stored names: `pc-b` is dropped and `pc-a` stored twice, so
that the stored names are no longer pairwise distinct. -/
theorem ReorderDevices_accepts_duplicate :
    storeAB.Devices = [pcA, pcB] ∧
    ¬ List.Perm [str "pc-a", str "pc-a"] (storeAB.Devices.map Device.Name) ∧
    storeAB.ReorderDevices [str "pc-a", str "pc-a"] true =
      ({ storeAB with Devices := [pcA, pcA] }, none) ∧
    ¬ UniqueNames (storeAB.ReorderDevices [str "pc-a", str "pc-a"] true).1.Devices := by
  refine ⟨by decide, by decide, by decide, ?_⟩
  have he : (storeAB.ReorderDevices [str "pc-a", str "pc-a"] true).1.Devices = [pcA, pcA] := by
    decide
  rw [he]
  intro h
  exact (List.pairwise_cons.mp h).1 pcA (List.mem_singleton.mpr rfl) rfl

theorem subDevice_validate_ne_persistence (ParseIP : GoString → Option (List Nat))
    (sd : SubDevice) : sd.Validate ParseIP ≠ some .persistence := by
  unfold SubDevice.Validate
  split_ifs <;> simp

theorem device_validate_ne_persistence (ParseIP : GoString → Option (List Nat)) (d : Device) :
    d.Validate ParseIP ≠ some .persistence := by
  unfold Device.Validate
  split_ifs
  · simp
  · intro h
    obtain ⟨sd, -, hsd⟩ := List.exists_of_findSome?_eq_some h
    exact subDevice_validate_ne_persistence ParseIP sd hsd
  · exact subDevice_validate_ne_persistence ParseIP _

/-- C5. A call the registry rejects (see `Rejected`) returns a validation,
conflict or not-found error and leaves the store, in particular the device
sequence, exactly as it was. -/
theorem rejected_call_unchanged (ParseIP : GoString → Option (List Nat)) (s : Store) (op : Op)
    (saveOk : Bool) (h : Rejected ParseIP s op) :
    (s.step ParseIP op saveOk).1 = s ∧
    (s.step ParseIP op saveOk).1.Devices = s.Devices ∧
    ∃ err, (s.step ParseIP op saveOk).2 = some err ∧ err ≠ .persistence := by
  cases op with
  | add d =>
    simp only [Store.step]
    rcases AddDevice_cases ParseIP s d saveOk with ⟨err, hv, he⟩ | ⟨-, -, he⟩ | ⟨hv, hn, -⟩
    · rw [he]
      refine ⟨rfl, rfl, err, rfl, ?_⟩
      rintro rfl
      exact device_validate_ne_persistence ParseIP d hv
    · rw [he]; exact ⟨rfl, rfl, _, rfl, by simp⟩
    · rcases h with h | ⟨dev, hd, hdn⟩
      · exact absurd hv h
      · exact absurd hdn (hn dev hd)
  | update oldName d =>
    simp only [Store.step]
    rcases UpdateDevice_cases ParseIP s oldName d saveOk with
      ⟨err, hv, he⟩ | ⟨-, -, -, he⟩ | ⟨-, -, -, he⟩ | ⟨hv, hc, pre, x, post, hs, hx, -, -⟩
    · rw [he]
      refine ⟨rfl, rfl, err, rfl, ?_⟩
      rintro rfl
      exact device_validate_ne_persistence ParseIP d hv
    · rw [he]; exact ⟨rfl, rfl, _, rfl, by simp⟩
    · rw [he]; exact ⟨rfl, rfl, _, rfl, by simp⟩
    · have hxm : x ∈ s.Devices := by rw [hs]; simp
      rcases h with h | ⟨hne, dev, hd, hdn⟩ | h
      · exact absurd hv h
      · rcases hc with hc | hc
        · exact absurd hc.symm hne
        · exact absurd hdn (hc dev hd)
      · exact absurd hx (h x hxm)
  | delete name =>
    simp only [Store.step]
    rcases DeleteDevice_cases s name saveOk with ⟨-, he⟩ | ⟨⟨dev, hd, hdn⟩, -⟩
    · rw [he]; exact ⟨rfl, rfl, _, rfl, by simp⟩
    · exact absurd hdn (h dev hd)
  | reorder names =>
    simp only [Store.step]
    rcases ReorderDevices_cases s names saveOk with
      ⟨-, he⟩ | ⟨-, n, -, -, he⟩ | ⟨hl, hall, -⟩
    · rw [he]; exact ⟨rfl, rfl, _, rfl, by simp⟩
    · rw [he]; exact ⟨rfl, rfl, _, rfl, by simp⟩
    · rcases h with h | ⟨n, hn, hnone⟩
      · exact absurd hl h
      · obtain ⟨dev, hd, hdn⟩ := hall n hn
        exact absurd hdn (hnone dev hd)

/-- Witness for C5: adding `pc-a` a second time is rejected and changes
nothing. -/
theorem rejected_call_unchanged_witness :
    Rejected parseIPv4 storeAB (.add pcA) ∧
    (storeAB.step parseIPv4 (.add pcA) true).1 = storeAB ∧
    (storeAB.step parseIPv4 (.add pcA) true).2 = some .alreadyExists :=
  have hr : Rejected parseIPv4 storeAB (.add pcA) := Or.inr ⟨pcA, by decide, rfl⟩
  ⟨hr, (rejected_call_unchanged parseIPv4 storeAB (.add pcA) true hr).1, by decide⟩

/-! ### The group invariant -/

theorem clearTopLevel_cleared (d : Device) : GroupCleared (clearTopLevel d) := by
  unfold GroupCleared clearTopLevel
  by_cases h : d.SubDevices.length > 0
  · rw [if_pos h]
    intro _
    exact ⟨rfl, rfl, rfl, rfl⟩
  · rw [if_neg h]
    intro hne
    exact absurd (List.length_pos.mpr hne) h

theorem step_cleared (ParseIP : GoString → Option (List Nat)) (s : Store) (op : Op)
    (saveOk : Bool) (h : ∀ dev ∈ s.Devices, GroupCleared dev) :
    ∀ dev ∈ (s.step ParseIP op saveOk).1.Devices, GroupCleared dev := by
  cases op with
  | add d =>
    simp only [Store.step]
    rcases AddDevice_cases ParseIP s d saveOk with ⟨err, -, he⟩ | ⟨-, -, he⟩ | ⟨-, -, he⟩
    · rw [he]; exact h
    · rw [he]; exact h
    · rw [he]
      intro dev hdev
      simp only [List.mem_append, List.mem_singleton] at hdev
      rcases hdev with hdev | rfl
      · exact h dev hdev
      · exact clearTopLevel_cleared d
  | update oldName d =>
    simp only [Store.step]
    rcases UpdateDevice_cases ParseIP s oldName d saveOk with
      ⟨err, -, he⟩ | ⟨-, -, -, he⟩ | ⟨-, -, -, he⟩ | ⟨-, -, pre, x, post, hs, -, -, he⟩
    · rw [he]; exact h
    · rw [he]; exact h
    · rw [he]; exact h
    · rw [he]
      intro dev hdev
      simp only [List.mem_append, List.mem_cons] at hdev
      rcases hdev with hdev | rfl | hdev
      · exact h dev (by rw [hs]; simp [hdev])
      · exact clearTopLevel_cleared d
      · exact h dev (by rw [hs]; simp [hdev])
  | delete name =>
    simp only [Store.step]
    rcases DeleteDevice_cases s name saveOk with ⟨-, he⟩ | ⟨-, he⟩
    · rw [he]; exact h
    · rw [he]
      intro dev hdev
      exact h dev (List.mem_of_mem_filter hdev)
  | reorder names =>
    simp only [Store.step]
    rcases ReorderDevices_cases s names saveOk with
      ⟨-, he⟩ | ⟨-, n, -, -, he⟩ | ⟨-, -, he⟩
    · rw [he]; exact h
    · rw [he]; exact h
    · rw [he]
      intro dev hdev
      simp only [List.mem_filterMap] at hdev
      obtain ⟨n, -, hn⟩ := hdev
      exact h dev (buildDeviceMap_some hn).1

theorem run_cleared (ParseIP : GoString → Option (List Nat)) (calls : List (Op × Bool)) :
    ∀ s : Store, (∀ dev ∈ s.Devices, GroupCleared dev) →
      ∀ dev ∈ (s.run ParseIP calls).Devices, GroupCleared dev := by
  induction calls with
  | nil => intro s h; exact h
  | cons c calls ih =>
    intro s h
    unfold Store.run
    rw [List.foldl_cons]
    exact ih _ (step_cleared ParseIP s c.1 c.2 h)

/-- C6. Starting from the empty registry, after any sequence of `AddDevice`,
`UpdateDevice`, `DeleteDevice` and `ReorderDevices` calls every stored device
with sub-devices has `MAC = ""`, `IP = ""`, `Port = 0`, `BroadcastIP = ""`; and
a successful `AddDevice` of a group `d` appends the record with these four
fields cleared and `Name`, `SubDevices`, `PingMode` as given. -/
theorem group_fields_cleared (ParseIP : GoString → Option (List Nat)) (filename : GoString)
    (calls : List (Op × Bool)) (s : Store) (d : Device) (saveOk : Bool)
    (hgrp : d.SubDevices ≠ []) (hok : (s.AddDevice ParseIP d saveOk).2 = none) :
    (∀ dev ∈ ((Store.init filename).run ParseIP calls).Devices,
      dev.SubDevices ≠ [] → dev.MAC = [] ∧ dev.IP = [] ∧ dev.Port = 0 ∧ dev.BroadcastIP = []) ∧
    (s.AddDevice ParseIP d saveOk).1.Devices =
      s.Devices ++ [{ Name := d.Name, MAC := [], IP := [], Port := 0, BroadcastIP := [],
                      SubDevices := d.SubDevices, PingMode := d.PingMode }] := by
  refine ⟨run_cleared ParseIP calls (Store.init filename) (by simp [Store.init]), ?_⟩
  have hc : clearTopLevel d =
      { Name := d.Name, MAC := [], IP := [], Port := 0, BroadcastIP := [],
        SubDevices := d.SubDevices, PingMode := d.PingMode } := by
    unfold clearTopLevel
    rw [if_pos (List.length_pos.mpr hgrp)]
  rcases AddDevice_cases ParseIP s d saveOk with ⟨err, -, he⟩ | ⟨-, -, he⟩ | ⟨-, -, he⟩
  · rw [he] at hok; cases hok
  · rw [he] at hok; cases hok
  · rw [he, hc]

/-- Witness for C6: the group `lab`, which carries a top-level MAC, IP, port
and broadcast IP, is stored with the four fields cleared. -/
theorem group_fields_cleared_witness :
    lab.SubDevices ≠ [] ∧ lab.MAC ≠ [] ∧
    (storeAB.AddDevice parseIPv4 lab true).2 = none ∧
    (storeAB.AddDevice parseIPv4 lab true).1.Devices =
      [pcA, pcB, { Name := str "lab", MAC := [], IP := [], Port := 0, BroadcastIP := [],
                   SubDevices := lab.SubDevices, PingMode := str "any" }] :=
  ⟨by decide, by decide, by decide,
    (group_fields_cleared parseIPv4 (str "wol.json")
      [(.add lab, true), (.reorder [str "lab"], true)] storeAB lab true
      (by decide) (by decide)).2.trans (by decide)⟩

/-! ### The frame of `UpdateDevice` -/

theorem getElem?_replace_ne {α : Type} (pre post : List α) (x d : α) (j : Nat)
    (hj : j ≠ pre.length) : (pre ++ d :: post)[j]? = (pre ++ x :: post)[j]? := by
  have h : pre ++ d :: post = (pre ++ x :: post).set pre.length d := by simp
  rw [h, List.getElem?_set]
  rw [if_neg (fun hc => hj hc.symm)]

/-- C7. For a valid device `d` and an `oldName` that names a stored device,
with `d.Name = oldName` or no stored device named `d.Name`, `UpdateDevice`
succeeds (it returns the result of the write) and yields a device sequence of
the same length in which the position of the first device named `oldName`
holds `d`, with its single-target fields cleared when `d` is a group, and
every other position is unchanged. -/
theorem UpdateDevice_frame (ParseIP : GoString → Option (List Nat)) (s : Store)
    (oldName : GoString) (d : Device) (saveOk : Bool)
    (hvalid : d.Validate ParseIP = none)
    (hold : ∃ dev ∈ s.Devices, dev.Name = oldName)
    (hname : d.Name = oldName ∨ ∀ dev ∈ s.Devices, dev.Name ≠ d.Name) :
    (s.UpdateDevice ParseIP oldName d saveOk).2 = (if saveOk then none else some .persistence) ∧
    (s.UpdateDevice ParseIP oldName d saveOk).1.Devices.length = s.Devices.length ∧
    ∃ i, i < s.Devices.length ∧
      (∃ x, s.Devices[i]? = some x ∧ x.Name = oldName) ∧
      (∀ j y, j < i → s.Devices[j]? = some y → y.Name ≠ oldName) ∧
      (s.UpdateDevice ParseIP oldName d saveOk).1.Devices[i]? =
        some (if d.SubDevices ≠ [] then
                { d with MAC := [], IP := [], Port := 0, BroadcastIP := [] }
              else d) ∧
      ∀ j, j ≠ i → (s.UpdateDevice ParseIP oldName d saveOk).1.Devices[j]? = s.Devices[j]? := by
  have hc : clearTopLevel d =
      (if d.SubDevices ≠ [] then
        { d with MAC := [], IP := [], Port := 0, BroadcastIP := [] } else d) := by
    unfold clearTopLevel
    by_cases h : d.SubDevices = []
    · simp [h]
    · rw [if_pos (List.length_pos.mpr h), if_pos h]
  rcases UpdateDevice_cases ParseIP s oldName d saveOk with
    ⟨err, hv, -⟩ | ⟨-, hne, ⟨dev, hd, hdn⟩, -⟩ | ⟨-, -, hnone, -⟩ |
    ⟨-, -, pre, x, post, hs, hx, hpre, he⟩
  · rw [hvalid] at hv; cases hv
  · rcases hname with h | h
    · exact absurd h.symm hne
    · exact absurd hdn (h dev hd)
  · obtain ⟨dev, hd, hdn⟩ := hold
    exact absurd hdn (hnone dev hd)
  · rw [he, hs, ← hc]
    refine ⟨rfl, by simp, pre.length, by simp, ⟨x, ?_, hx⟩, ?_, ?_, ?_⟩
    · rw [List.getElem?_append_right (le_refl _)]; simp
    · intro j y hj hy
      rw [List.getElem?_append_left hj] at hy
      exact hpre y (List.getElem?_mem hy)
    · simp only []
      rw [List.getElem?_append_right (le_refl _)]; simp
    · intro j hj
      exact getElem?_replace_ne pre post x (clearTopLevel d) j hj

/-- Witness for C7: renaming `pc-b` to `pc-c` keeps `pc-a` at position 0 and
puts the new record at position 1. -/
theorem UpdateDevice_frame_witness :
    pcC.Validate parseIPv4 = none ∧
    (storeAB.UpdateDevice parseIPv4 (str "pc-b") pcC true).2 = none ∧
    (storeAB.UpdateDevice parseIPv4 (str "pc-b") pcC true).1.Devices = [pcA, pcC] ∧
    (storeAB.UpdateDevice parseIPv4 (str "pc-b") pcC true).1.Devices.length =
      storeAB.Devices.length :=
  ⟨by decide,
    (UpdateDevice_frame parseIPv4 storeAB (str "pc-b") pcC true (by decide)
      ⟨pcB, by decide, by decide⟩ (Or.inr (by decide))).1,
    by decide,
    (UpdateDevice_frame parseIPv4 storeAB (str "pc-b") pcC true (by decide)
      ⟨pcB, by decide, by decide⟩ (Or.inr (by decide))).2.1⟩

/-! ### `DeleteDevice` -/

theorem filter_name_ne_of_unique (name : GoString) (pre post : List Device) (x : Device)
    (hx : x.Name = name) (hu : UniqueNames (pre ++ x :: post)) :
    (pre ++ x :: post).filter (fun d => d.Name ≠ name) = pre ++ post ∧
    ∀ d ∈ pre ++ post, d.Name ≠ name := by
  unfold UniqueNames at hu
  rw [List.pairwise_append] at hu
  obtain ⟨-, hpost, hcross⟩ := hu
  rw [List.pairwise_cons] at hpost
  have h1 : ∀ d ∈ pre, d.Name ≠ name := by
    intro d hd
    rw [← hx]
    exact hcross d hd x (List.mem_cons_self _ _)
  have h2 : ∀ d ∈ post, d.Name ≠ name := by
    intro d hd
    rw [← hx]
    exact fun h => hpost.1 d hd h.symm
  refine ⟨?_, ?_⟩
  · rw [List.filter_append, List.filter_cons]
    have e1 : pre.filter (fun d => d.Name ≠ name) = pre :=
      List.filter_eq_self.mpr (fun d hd => by simpa using h1 d hd)
    have e2 : post.filter (fun d => d.Name ≠ name) = post :=
      List.filter_eq_self.mpr (fun d hd => by simpa using h2 d hd)
    rw [e1, e2]
    simp [hx]
  · intro d hd
    rcases List.mem_append.mp hd with hd | hd
    · exact h1 d hd
    · exact h2 d hd

/-- C8. `DeleteDevice` fails with the not-found error exactly when no stored
device has the name.  When the stored names are pairwise distinct and the name
is present, the call succeeds (it returns the result of the write) and the new
device sequence is the previous one with the one device of that name taken
out: one device fewer, the others in their previous order. -/
theorem DeleteDevice_removes_one (s : Store) (name : GoString) (saveOk : Bool)
    (hunique : UniqueNames s.Devices) (hpresent : ∃ dev ∈ s.Devices, dev.Name = name) :
    ((s.DeleteDevice name saveOk).2 = (if saveOk then none else some .persistence)) ∧
    (∃ pre x post, s.Devices = pre ++ x :: post ∧ x.Name = name ∧
      (s.DeleteDevice name saveOk).1.Devices = pre ++ post ∧
      ∀ dev ∈ pre ++ post, dev.Name ≠ name) ∧
    (s.DeleteDevice name saveOk).1.Devices.length + 1 = s.Devices.length ∧
    (∀ (s2 : Store) (name2 : GoString) (saveOk2 : Bool),
      (s2.DeleteDevice name2 saveOk2).2 = some .notFound ↔
        ∀ dev ∈ s2.Devices, dev.Name ≠ name2) := by
  have hiff : ∀ (s2 : Store) (name2 : GoString) (saveOk2 : Bool),
      (s2.DeleteDevice name2 saveOk2).2 = some .notFound ↔
        ∀ dev ∈ s2.Devices, dev.Name ≠ name2 := by
    intro s2 name2 saveOk2
    rcases DeleteDevice_cases s2 name2 saveOk2 with ⟨hn, he⟩ | ⟨⟨dev, hd, hdn⟩, he⟩
    · rw [he]; simp only [true_iff]; exact hn
    · rw [he]
      constructor
      · intro h
        cases saveOk2 <;> simp at h
      · intro h
        exact absurd hdn (h dev hd)
  rcases DeleteDevice_cases s name saveOk with ⟨hn, -⟩ | ⟨-, he⟩
  · obtain ⟨dev, hd, hdn⟩ := hpresent
    exact absurd hdn (hn dev hd)
  · obtain ⟨x, hxm, hx⟩ := hpresent
    obtain ⟨pre, post, hs⟩ := List.append_of_mem hxm
    rw [hs] at hunique
    obtain ⟨hf, hne⟩ := filter_name_ne_of_unique name pre post x hx hunique
    rw [he]
    simp only []
    rw [hs, hf]
    exact ⟨trivial, ⟨pre, x, post, rfl, hx, rfl, hne⟩, by simp only [List.length_append, List.length_cons]; omega, hiff⟩

/-- Witness for C8: deleting `pc-a` from the registry `[pc-a, pc-b]`. -/
theorem DeleteDevice_removes_one_witness :
    UniqueNames storeAB.Devices ∧
    (storeAB.DeleteDevice (str "pc-a") true).2 = none ∧
    (storeAB.DeleteDevice (str "pc-a") true).1.Devices = [pcB] ∧
    (storeAB.DeleteDevice (str "pc-a") true).1.Devices.length + 1 = storeAB.Devices.length :=
  have hu : UniqueNames storeAB.Devices :=
    addAll_unique parseIPv4 _ (Store.init (str "wol.json")) List.Pairwise.nil
  ⟨hu,
    (DeleteDevice_removes_one storeAB (str "pc-a") true hu ⟨pcA, by decide, by decide⟩).1,
    by decide,
    (DeleteDevice_removes_one storeAB (str "pc-a") true hu ⟨pcA, by decide, by decide⟩).2.2.1⟩

/-! ## Theorems: `Wake` -/

theorem getBroadcastAddresses_error_iff (ifaces : Except WolError (List Interface)) :
    (∃ err, getBroadcastAddresses ifaces = .error err) ↔ ∃ err, ifaces = .error err := by
  unfold getBroadcastAddresses
  cases ifaces with
  | error e => simp
  | ok l => simp

theorem foldl_append_singleton {α β : Type} (f : α → β) (l : List α) :
    ∀ acc : List β, l.foldl (fun acc a => acc ++ [f a]) acc = acc ++ l.map f := by
  induction l with
  | nil => intro acc; simp
  | cons x xs ih => intro acc; rw [List.foldl_cons, ih]; simp

theorem wakeTargets_ok (net : Network) (broadcastIP : GoString) (port : Int)
    (addrs : List GoString)
    (hres : broadcastIP = [] → getBroadcastAddresses net.Interfaces = .ok addrs) :
    wakeTargets net broadcastIP port = .ok (targetList broadcastIP port addrs) := by
  unfold wakeTargets targetList
  by_cases hb : broadcastIP = []
  · rw [if_neg (by simpa using hb), if_neg (by simpa using hb), hres hb]
    simp only []
    by_cases ha : addrs = []
    · subst ha; simp
    · have hl : addrs.length ≠ 0 := fun h => ha (List.length_eq_zero.mp h)
      rw [if_neg hl, if_neg ha]
      rw [foldl_append_singleton (fun addr => addr ++ str ":" ++ itoa port)]
      simp
  · rw [if_pos hb, if_pos hb]

theorem wakeTargets_error_iff (net : Network) (broadcastIP : GoString) (port : Int) :
    (∃ err, wakeTargets net broadcastIP port = .error err) ↔
      (broadcastIP = [] ∧ ∃ err, getBroadcastAddresses net.Interfaces = .error err) := by
  unfold wakeTargets
  by_cases hb : broadcastIP = []
  · rw [if_neg (by simpa using hb)]
    cases hg : getBroadcastAddresses net.Interfaces with
    | error e => simp [hb]
    | ok addrs =>
      simp only []
      by_cases ha : addrs.length = 0
      · rw [if_pos ha]; simp
      · rw [if_neg ha]; simp
  · rw [if_pos hb]
    simp [hb]

theorem targets_foldl_send (net : Network) (mp : List Nat) (targets : List GoString) :
    ∀ log : List Event,
      targets.foldl (fun log target => (Send net log mp target).1) log =
        log ++ targets.map (fun t => Event.send t mp) := by
  induction targets with
  | nil => intro log; simp
  | cons t ts ih => intro log; rw [List.foldl_cons, ih]; simp [Send]

theorem sendLoop_eq (net : Network) (mp : List Nat) (targets : List GoString) :
    sendLoop net mp targets =
      (List.replicate 5 (targets.map (fun t => Event.send t mp) ++ [Event.sleep 100])).flatten := by
  unfold sendLoop
  simp [List.range, List.range.loop, targets_foldl_send, List.replicate]

theorem sendsOf_append (l1 l2 : List Event) : sendsOf (l1 ++ l2) = sendsOf l1 ++ sendsOf l2 := by
  unfold sendsOf
  rw [List.filterMap_append]

theorem sendsOf_round (mp : List Nat) (targets : List GoString) :
    sendsOf (targets.map (fun t => Event.send t mp) ++ [Event.sleep 100]) =
      targets.map (fun t => (t, mp)) := by
  induction targets with
  | nil => rfl
  | cons t ts ih =>
    have h : sendsOf (Event.send t mp :: (ts.map (fun t => Event.send t mp) ++ [Event.sleep 100]))
        = (t, mp) :: sendsOf (ts.map (fun t => Event.send t mp) ++ [Event.sleep 100]) := rfl
    rw [List.map_cons, List.cons_append, h, ih, List.map_cons]

theorem sendsOf_replicate (round : List Event) (n : Nat) :
    sendsOf (List.replicate n round).flatten = (List.replicate n (sendsOf round)).flatten := by
  induction n with
  | zero => rfl
  | succ n ih =>
    rw [List.replicate_succ, List.flatten_cons, sendsOf_append, ih, List.replicate_succ,
      List.flatten_cons]

theorem sendsOf_sendLoop (net : Network) (mp : List Nat) (targets : List GoString) :
    sendsOf (sendLoop net mp targets) =
      (List.replicate 5 (targets.map (fun t => (t, mp)))).flatten := by
  rw [sendLoop_eq, sendsOf_replicate, sendsOf_round]

/-- C9. `Wake` returns an error exactly when `NewMagicPacket` fails, or
`broadcastIP` is empty and the resolver fails, which is when
`net.Interfaces()` fails; the results of the individual sends have no part in
it. -/
theorem Wake_error_iff (net : Network) (macAddr broadcastIP : GoString) (port : Int) :
    ((Wake net macAddr broadcastIP port).2 ≠ none ↔
      ((∃ err, NewMagicPacket macAddr = .error err) ∨
        (broadcastIP = [] ∧ ∃ err, getBroadcastAddresses net.Interfaces = .error err))) ∧
    ((∃ err, getBroadcastAddresses net.Interfaces = .error err) ↔
      ∃ err, net.Interfaces = .error err) ∧
    (∀ sendResult : Nat → GoString → Option WolError,
      (Wake { net with sendResult := sendResult } macAddr broadcastIP port).2 =
        (Wake net macAddr broadcastIP port).2) := by
  refine ⟨?_, getBroadcastAddresses_error_iff _, ?_⟩
  · rw [← wakeTargets_error_iff net broadcastIP port]
    unfold Wake
    cases hp : NewMagicPacket macAddr with
    | error e => simp
    | ok mp =>
      cases ht : wakeTargets net broadcastIP port with
      | error e => simp
      | ok targets => simp
  · intro sendResult
    unfold Wake
    cases hp : NewMagicPacket macAddr with
    | error e => rfl
    | ok mp =>
      have : wakeTargets { net with sendResult := sendResult } broadcastIP port =
          wakeTargets net broadcastIP port := rfl
      rw [this]
      cases ht : wakeTargets net broadcastIP port with
      | error e => rfl
      | ok targets => rfl

/-- C10. For a MAC that builds a packet `mp` (102 bytes), `Wake` makes five
rounds, each sending `mp` once to every target of the target list in order and
then sleeping 100 ms, whatever the results of the sends: `5 * |targets|`
attempts.  The target list is `broadcastIP:port` when `broadcastIP` is given,
otherwise the resolver's addresses paired with `port`, or
`255.255.255.255:port` when the resolver returns none.  When `NewMagicPacket`
fails nothing is sent. -/
theorem Wake_send_sequence (net : Network) (macAddr broadcastIP : GoString) (port : Int)
    (mp : List Nat) (addrs : List GoString)
    (hmp : NewMagicPacket macAddr = .ok mp)
    (hres : broadcastIP = [] → getBroadcastAddresses net.Interfaces = .ok addrs) :
    (Wake net macAddr broadcastIP port).1 =
      (List.replicate 5
        ((targetList broadcastIP port addrs).map (fun t => Event.send t mp) ++
          [Event.sleep 100])).flatten ∧
    sendsOf (Wake net macAddr broadcastIP port).1 =
      (List.replicate 5 ((targetList broadcastIP port addrs).map (fun t => (t, mp)))).flatten ∧
    (sendsOf (Wake net macAddr broadcastIP port).1).length =
      5 * (targetList broadcastIP port addrs).length ∧
    mp.length = 102 ∧
    (∀ (net2 : Network) (macAddr2 broadcastIP2 : GoString) (port2 : Int),
      (∃ err, NewMagicPacket macAddr2 = .error err) →
        (Wake net2 macAddr2 broadcastIP2 port2).1 = []) := by
  have hw : Wake net macAddr broadcastIP port =
      (sendLoop net mp (targetList broadcastIP port addrs), none) := by
    unfold Wake
    rw [hmp]
    simp only []
    rw [wakeTargets_ok net broadcastIP port addrs hres]
  rw [hw]
  simp only []
  refine ⟨sendLoop_eq _ _ _, sendsOf_sendLoop _ _ _, ?_, ?_, ?_⟩
  · rw [sendsOf_sendLoop]
    simp [List.replicate]
    omega
  · obtain ⟨a, b, c, d, e, f, -, rfl⟩ := (NewMagicPacket_ok_iff macAddr mp).1 hmp
    rfl
  · rintro net2 macAddr2 broadcastIP2 port2 ⟨err, herr⟩
    unfold Wake
    rw [herr]

/-- Witness for C10: on a host whose only usable address is `192.168.1.50/24`
and with no `broadcastIP` given, the five sends go to `192.168.1.255:9`. -/
theorem Wake_send_sequence_witness :
    getBroadcastAddresses sampleNetwork.Interfaces = .ok [str "192.168.1.255"] ∧
    sendsOf (Wake sampleNetwork (str "AA:BB:CC:DD:EE:FF") [] 9).1 =
      List.replicate 5
        (str "192.168.1.255:9",
          List.replicate 6 255 ++
            (List.replicate 16 [0xAA, 0xBB, 0xCC, 0xDD, 0xEE, 0xFF]).flatten) :=
  ⟨by decide,
    (Wake_send_sequence sampleNetwork (str "AA:BB:CC:DD:EE:FF") [] 9
      (List.replicate 6 255 ++ (List.replicate 16 [0xAA, 0xBB, 0xCC, 0xDD, 0xEE, 0xFF]).flatten)
      [str "192.168.1.255"] (by decide) (fun _ => by decide)).2.1.trans (by decide)⟩

/-! ## Evaluations of the validator and of the resolver -/

/-- The MAC forms `isValidMAC` accepts and rejects, evaluated. -/
theorem isValidMAC_samples :
    isValidMAC (str "AA:BB:CC:DD:EE:FF") = true ∧
    isValidMAC (str "aa-bb-cc-dd-ee-ff") = true ∧
    isValidMAC (str "aabb.ccdd.eeff") = true ∧
    isValidMAC (str "AA:BB:CC:DD:EE:FF:00:11") = true ∧
    isValidMAC (str "AABBCCDDEEFF") = true ∧
    isValidMAC (str "AABBCCDDEEFF0011") = true ∧
    isValidMAC (str "AABBCCDDEEF") = false ∧
    isValidMAC (str "AA:BB:CC:DD:EE") = false ∧
    isValidMAC (str "AA:BB-CC:DD:EE:FF") = false := by
  decide

/-- The hostname pattern, evaluated. -/
theorem isValidHostname_samples :
    isValidHostname (str "my-host.example.com") = true ∧
    isValidHostname (str "-host") = false ∧
    isValidHostname (str "a..b") = false ∧
    isValidHostname [] = false := by
  decide

/-- The resolver on the sample host: only the address of the interface that is
up and not loopback is used, and only its IPv4 address. -/
theorem getBroadcastAddresses_sample :
    getBroadcastAddresses sampleNetwork.Interfaces = .ok [str "192.168.1.255"] ∧
    getBroadcastAddresses brokenNetwork.Interfaces = .error .interfaces ∧
    (Wake brokenNetwork (str "AA:BB:CC:DD:EE:FF") [] 9) = ([], some .interfaces) ∧
    (Wake brokenNetwork (str "AA:BB:CC:DD:EE:FF") (str "10.0.0.255") 9).2 = none ∧
    (Wake sampleNetwork (str "AA:BB:CC:DD:EE") [] 9) = ([], some .invalidMACLength) := by
  decide

/-! ## Theorems: the wake handler -/

theorem Wake_of_error (net : Network) (macAddr broadcastIP : GoString) (port : Int)
    (err : WolError) (h : NewMagicPacket macAddr = .error err) :
    Wake net macAddr broadcastIP port = ([], some err) := by
  unfold Wake
  rw [h]

theorem Wake_of_ok (net : Network) (macAddr broadcastIP : GoString) (port : Int)
    (mp : List Nat) (addrs : List GoString) (hmp : NewMagicPacket macAddr = .ok mp)
    (hres : broadcastIP = [] → getBroadcastAddresses net.Interfaces = .ok addrs) :
    Wake net macAddr broadcastIP port =
      (sendLoop net mp (targetList broadcastIP port addrs), none) := by
  unfold Wake
  rw [hmp]
  simp only []
  rw [wakeTargets_ok net broadcastIP port addrs hres]

theorem targetList_ne_nil (broadcastIP : GoString) (port : Int) (addrs : List GoString) :
    targetList broadcastIP port addrs ≠ [] := by
  unfold targetList
  split_ifs with h1 h2
  · simp
  · simp
  · simpa using h2

theorem groupLoop_foldl (net : Nat → Network) (subDevices : List SubDevice) :
    ∀ acc : List WakeCall × List (Nat × GoString × WolError),
      (subDevices.foldl
        (fun (acc : List WakeCall × List (Nat × GoString × WolError)) sub =>
          match (wakeSub (net acc.1.length) sub).err with
          | some err =>
            (acc.1 ++ [wakeSub (net acc.1.length) sub],
              acc.2 ++ [(acc.1.length + 1, sub.MAC, err)])
          | none => (acc.1 ++ [wakeSub (net acc.1.length) sub], acc.2))
        acc).1 = acc.1 ++ callsFrom net acc.1.length subDevices ∧
      (subDevices.foldl
        (fun (acc : List WakeCall × List (Nat × GoString × WolError)) sub =>
          match (wakeSub (net acc.1.length) sub).err with
          | some err =>
            (acc.1 ++ [wakeSub (net acc.1.length) sub],
              acc.2 ++ [(acc.1.length + 1, sub.MAC, err)])
          | none => (acc.1 ++ [wakeSub (net acc.1.length) sub], acc.2))
        acc).2.length = acc.2.length + errorCount (callsFrom net acc.1.length subDevices) := by
  induction subDevices with
  | nil => intro acc; simp [callsFrom, errorCount]
  | cons sub rest ih =>
    intro acc
    rw [List.foldl_cons]
    cases he : (wakeSub (net acc.1.length) sub).err with
    | none =>
      simp only []
      obtain ⟨h1, h2⟩ := ih (acc.1 ++ [wakeSub (net acc.1.length) sub], acc.2)
      rw [h1, h2]
      simp [callsFrom, errorCount, he, List.filter_cons]
    | some err =>
      simp only []
      obtain ⟨h1, h2⟩ := ih (acc.1 ++ [wakeSub (net acc.1.length) sub],
        acc.2 ++ [(acc.1.length + 1, sub.MAC, err)])
      rw [h1, h2]
      simp [callsFrom, errorCount, he, List.filter_cons]
      omega

theorem groupLoop_eq (net : Nat → Network) (subDevices : List SubDevice) :
    (groupLoop net subDevices).1 = callsFrom net 0 subDevices ∧
    (groupLoop net subDevices).2.length = errorCount (callsFrom net 0 subDevices) := by
  have h := groupLoop_foldl net subDevices ([], [])
  simpa [groupLoop] using h

theorem callsFrom_getElem? (net : Nat → Network) (subDevices : List SubDevice) :
    ∀ k i, (callsFrom net k subDevices)[i]? = subDevices[i]?.map (wakeSub (net (k + i))) := by
  induction subDevices with
  | nil => intro k i; simp [callsFrom]
  | cons sub rest ih =>
    intro k i
    cases i with
    | zero => simp [callsFrom]
    | succ i =>
      simp only [callsFrom, List.getElem?_cons_succ]
      rw [ih (k + 1) i]
      have : k + 1 + i = k + (i + 1) := by omega
      rw [this]

theorem callsFrom_length (net : Nat → Network) (subDevices : List SubDevice) :
    ∀ k, (callsFrom net k subDevices).length = subDevices.length := by
  induction subDevices with
  | nil => intro k; rfl
  | cons sub rest ih => intro k; simp [callsFrom, ih]

theorem wakeSub_err_of_resolves (net : Network) (sub : SubDevice) (h : Resolves net sub) :
    (wakeSub net sub).err.isSome = badMAC sub := by
  unfold wakeSub badMAC
  simp only []
  cases hp : NewMagicPacket sub.MAC with
  | error e => rw [Wake_of_error net _ _ _ e hp]; rfl
  | ok mp =>
    by_cases hb : sub.BroadcastIP = []
    · obtain ⟨addrs, ha⟩ := h hb
      rw [Wake_of_ok net _ _ _ mp addrs hp (fun _ => ha)]; rfl
    · rw [Wake_of_ok net _ _ _ mp [] hp (fun hc => absurd hc hb)]; rfl

theorem errorCount_of_resolves (net : Nat → Network) (subDevices : List SubDevice) :
    ∀ k, (∀ i sub, subDevices[i]? = some sub → Resolves (net (k + i)) sub) →
      errorCount (callsFrom net k subDevices) = (subDevices.filter badMAC).length := by
  induction subDevices with
  | nil => intro k _; rfl
  | cons sub rest ih =>
    intro k h
    have h0 : Resolves (net k) sub := by
      have := h 0 sub (by simp)
      simpa using this
    have hrest : errorCount (callsFrom net (k + 1) rest) = (rest.filter badMAC).length := by
      apply ih (k + 1)
      intro i sub2 hs
      have := h (i + 1) sub2 (by simpa using hs)
      have e : k + 1 + i = k + (i + 1) := by omega
      rw [e]
      exact this
    have hsub := wakeSub_err_of_resolves (net k) sub h0
    unfold errorCount at hrest ⊢
    simp only [callsFrom, List.filter_cons, hsub]
    cases badMAC sub
    · simpa using hrest
    · simpa using hrest

theorem wakeSub_sends (net : Network) (sub : SubDevice) (mp : List Nat) (h : Resolves net sub)
    (hmp : NewMagicPacket sub.MAC = .ok mp) :
    (wakeSub net sub).err = none ∧
    ∃ targets, targets ≠ [] ∧
      sendsOf (wakeSub net sub).events =
        (List.replicate 5 (targets.map (fun t => (t, mp)))).flatten := by
  unfold wakeSub
  simp only []
  by_cases hb : sub.BroadcastIP = []
  · obtain ⟨addrs, ha⟩ := h hb
    rw [Wake_of_ok net _ _ _ mp addrs hmp (fun _ => ha)]
    exact ⟨rfl, _, targetList_ne_nil _ _ _, sendsOf_sendLoop _ _ _⟩
  · rw [Wake_of_ok net _ _ _ mp [] hmp (fun hc => absurd hc hb)]
    exact ⟨rfl, _, targetList_ne_nil _ _ _, sendsOf_sendLoop _ _ _⟩

/-- What `handleWake` does for a stored group. -/
theorem handleWake_group_eq (net : Nat → Network) (store : Store) (name : GoString)
    (device : Device) (hget : store.GetDevice name = some device)
    (hgrp : device.SubDevices ≠ []) :
    handleWake net store (some name) =
      ({ status := 200,
         body :=
          if errorCount (callsFrom net 0 device.SubDevices) > 0 then
            .groupErrors (errorCount (callsFrom net 0 device.SubDevices))
          else .groupCompleted },
        callsFrom net 0 device.SubDevices) := by
  unfold handleWake
  simp only [hget]
  rw [if_pos (List.length_pos.mpr hgrp)]
  obtain ⟨h1, h2⟩ := groupLoop_eq net device.SubDevices
  rcases hg : groupLoop net device.SubDevices with ⟨calls, errs⟩
  rw [hg] at h1 h2
  simp only [] at h1 h2
  subst h1
  simp only [h2]
  split_ifs <;> rfl


/-- C11. For a stored group, `handleWake` calls `Wake` once for every
sub-device, in order and whatever the earlier calls returned: call `i` is
`Wake(sub.MAC, sub.BroadcastIP, port)` for sub-device `i`, with port 9 in place
of 0.  It answers 200 and reports as error count the number of calls that
returned an error (no count when there is none).  When target resolution
succeeds for every call, that number is the number of sub-devices whose MAC
`NewMagicPacket` rejects, and every other sub-device gets the full send
sequence, five rounds of its packet over its target list; so a group of 3 of
which exactly 1 has such a MAC reports 1 error and sends for the other 2. -/
theorem handleWake_group (net : Nat → Network) (store : Store) (name : GoString)
    (device : Device) (hget : store.GetDevice name = some device)
    (hgrp : device.SubDevices ≠ []) :
    (handleWake net store (some name)).2.length = device.SubDevices.length ∧
    (∀ i : Nat, (handleWake net store (some name)).2[i]? =
      device.SubDevices[i]?.map (fun sub =>
        { macAddr := sub.MAC, broadcastIP := sub.BroadcastIP,
          port := if sub.Port = 0 then 9 else sub.Port,
          events :=
            (Wake (net i) sub.MAC sub.BroadcastIP (if sub.Port = 0 then 9 else sub.Port)).1,
          err :=
            (Wake (net i) sub.MAC sub.BroadcastIP (if sub.Port = 0 then 9 else sub.Port)).2 })) ∧
    (handleWake net store (some name)).1.status = 200 ∧
    (handleWake net store (some name)).1.body =
      (if ((handleWake net store (some name)).2.filter (fun c => c.err.isSome)).length > 0 then
        .groupErrors
          ((handleWake net store (some name)).2.filter (fun c => c.err.isSome)).length
      else .groupCompleted) ∧
    ((∀ (i : Nat) (sub : SubDevice), device.SubDevices[i]? = some sub →
        sub.BroadcastIP = [] → ∃ addrs, getBroadcastAddresses (net i).Interfaces = .ok addrs) →
      ((handleWake net store (some name)).2.filter (fun c => c.err.isSome)).length =
        (device.SubDevices.filter (fun sub => !(NewMagicPacket sub.MAC).toBool)).length ∧
      (∀ (i : Nat) (sub : SubDevice) (mp : List Nat) (addrs : List GoString),
        device.SubDevices[i]? = some sub → NewMagicPacket sub.MAC = .ok mp →
        (sub.BroadcastIP = [] → getBroadcastAddresses (net i).Interfaces = .ok addrs) →
        ∃ call : WakeCall,
          (handleWake net store (some name)).2[i]? = some call ∧
          call.err = none ∧ mp.length = 102 ∧
          sendsOf call.events =
            (List.replicate 5
              ((targetList sub.BroadcastIP (if sub.Port = 0 then 9 else sub.Port) addrs).map
                (fun t => (t, mp)))).flatten) ∧
      (device.SubDevices.length = 3 →
        (device.SubDevices.filter (fun sub => !(NewMagicPacket sub.MAC).toBool)).length = 1 →
        (handleWake net store (some name)).1.body = .groupErrors 1 ∧
        (device.SubDevices.filter (fun sub => (NewMagicPacket sub.MAC).toBool)).length = 2)) := by
  have hbad : badMAC = fun sub => !(NewMagicPacket sub.MAC).toBool := by
    funext sub
    unfold badMAC
    cases NewMagicPacket sub.MAC <;> rfl
  rw [handleWake_group_eq net store name device hget hgrp]
  simp only []
  have hidx : ∀ i, (callsFrom net 0 device.SubDevices)[i]? =
      device.SubDevices[i]?.map (wakeSub (net i)) := by
    intro i
    rw [callsFrom_getElem? net device.SubDevices 0 i, Nat.zero_add]
  refine ⟨callsFrom_length net device.SubDevices 0, hidx, trivial, rfl, ?_⟩
  intro hres
  have hcount : errorCount (callsFrom net 0 device.SubDevices) =
      (device.SubDevices.filter badMAC).length :=
    errorCount_of_resolves net device.SubDevices 0
      (fun i sub hs => by rw [Nat.zero_add]; exact hres i sub hs)
  rw [hbad] at hcount
  refine ⟨hcount, ?_, ?_⟩
  · intro i sub mp addrs hs hmp haddrs
    refine ⟨wakeSub (net i) sub, by rw [hidx i, hs]; rfl, ?_, ?_, ?_⟩
    · unfold wakeSub
      simp only []
      rw [Wake_of_ok (net i) _ _ _ mp addrs hmp haddrs]
    · obtain ⟨a, b, c, d, e, f, -, rfl⟩ := (NewMagicPacket_ok_iff sub.MAC mp).1 hmp
      rfl
    · unfold wakeSub
      simp only []
      rw [Wake_of_ok (net i) _ _ _ mp addrs hmp haddrs]
      exact sendsOf_sendLoop _ _ _
  · intro h3 h1
    have hc : errorCount (callsFrom net 0 device.SubDevices) = 1 := hcount.trans h1
    rw [hc]
    refine ⟨by simp, ?_⟩
    have hsplit := List.length_eq_length_filter_add (l := device.SubDevices)
      (fun sub => (NewMagicPacket sub.MAC).toBool)
    rw [h3] at hsplit
    have h1b : (device.SubDevices.filter
        (fun sub => !(NewMagicPacket sub.MAC).toBool)).length = 1 := h1
    omega

/-- Witness for C11: the group `trio` (three sub-devices, the second with an
8-octet MAC that `Validate` accepts and `NewMagicPacket` rejects) on the
sample host: three calls, the second fails and sends nothing, the first and
the third send their packet five times to their target, and the report is one
error. -/
theorem handleWake_group_witness :
    storeTrio.GetDevice (str "trio") = some trio ∧
    (handleWake (fun _ => sampleNetwork) storeTrio (some (str "trio"))).2.length = 3 ∧
    (handleWake (fun _ => sampleNetwork) storeTrio (some (str "trio"))).1 =
      { status := 200, body := .groupErrors 1 } ∧
    (handleWake (fun _ => sampleNetwork) storeTrio (some (str "trio"))).2.map
        (fun c => (c.macAddr, c.broadcastIP, c.port, c.err, sendsOf c.events)) =
      [(str "AA:BB:CC:DD:EE:10", [], 9, none,
          List.replicate 5 (str "192.168.1.255:9",
            List.replicate 6 255 ++
              (List.replicate 16 [0xAA, 0xBB, 0xCC, 0xDD, 0xEE, 0x10]).flatten)),
       (str "AA:BB:CC:DD:EE:11:22:33", str "192.168.1.255", 7, some .invalidMACLength, []),
       (str "aabb.ccdd.ee12", str "10.0.0.255", 9, none,
          List.replicate 5 (str "10.0.0.255:9",
            List.replicate 6 255 ++
              (List.replicate 16 [0xAA, 0xBB, 0xCC, 0xDD, 0xEE, 0x12]).flatten))] :=
  ⟨by decide,
    (handleWake_group (fun _ => sampleNetwork) storeTrio (str "trio") trio (by decide)
      (by decide)).1.trans (by decide),
    by decide, by rfl⟩

/-- The sample group is accepted by `AddDevice`, and waking it gives one error
for three calls. -/
theorem handleWake_trio :
    (storeAB.AddDevice parseIPv4 trio true).2 = none ∧
    (handleWake (fun _ => sampleNetwork) storeTrio (some (str "trio"))).1 =
      { status := 200, body := .groupErrors 1 } ∧
    (handleWake (fun _ => sampleNetwork) storeTrio (some (str "trio"))).2.map
        (fun c => (c.err, (sendsOf c.events).length)) =
      [(none, 5), (some .invalidMACLength, 0), (none, 5)] := by
  decide

/-! ## Theorems: `isValidMAC` -/

theorem xtoi2_isSome (s : GoString) (e : Nat) :
    (xtoi2 s e).isSome =
      (decide (s.length ≤ 2 ∨ s.getD 2 0 = e) &&
        match s with
        | p :: q :: _ => isHexDigit p && isHexDigit q
        | _ => false) := by
  unfold xtoi2
  by_cases h : s.length > 2 ∧ s.getD 2 0 ≠ e
  · rw [if_pos h]
    have : ¬ (s.length ≤ 2 ∨ s.getD 2 0 = e) := by
      rintro (h1 | h1)
      · omega
      · exact h.2 h1
    rw [decide_eq_false this]
    rfl
  · rw [if_neg h]
    have : (s.length ≤ 2 ∨ s.getD 2 0 = e) := by
      by_contra hc
      push_neg at hc
      exact h ⟨by omega, hc.2⟩
    rw [decide_eq_true this, Bool.true_and]
    match s with
    | [] => rfl
    | [_] => rfl
    | p :: q :: _ =>
      simp only [← fromHexChar_isSome]
      cases fromHexChar p <;> cases fromHexChar q <;> rfl

theorem mapM_isSome {α β : Type} (f : α → Option β) (l : List α) :
    (l.mapM f).isSome = l.all (fun x => (f x).isSome) := by
  induction l with
  | nil => rfl
  | cons x xs ih =>
    rw [List.mapM_cons, List.all_cons, ← ih]
    cases f x <;> cases List.mapM f xs <;> rfl

theorem isHexDigit_ne_sep (c : Nat) (h : isHexDigit c = true) : c ≠ 58 ∧ c ≠ 45 ∧ c ≠ 46 := by
  unfold isHexDigit at h
  simp at h
  omega

theorem range_succ_all (n : Nat) (f : Nat → Bool) :
    (List.range (n + 1)).all f = (f 0 && (List.range n).all (fun i => f (i + 1))) := by
  rw [List.range_succ_eq_map, List.all_cons, List.all_map]
  rfl

theorem octetForm_length (sep : Nat) :
    ∀ (n : Nat) (s : GoString), octetForm sep n s = true → s.length + 1 = 3 * n
  | 0, s, h => by simp [octetForm] at h
  | 1, s, h => by
    match s, h with
    | [a, b], _ => rfl
  | n + 2, s, h => by
    match s, h with
    | a :: b :: c :: rest, h =>
      simp only [octetForm, Bool.and_eq_true] at h
      have := octetForm_length sep (n + 1) rest h.2
      simp only [List.length_cons]
      omega

theorem octetForm_sep (sep : Nat) (n : Nat) (s : GoString)
    (h : octetForm sep (n + 2) s = true) : s.getD 2 0 = sep := by
  match s, h with
  | a :: b :: c :: rest, h =>
    simp only [octetForm, Bool.and_eq_true, decide_eq_true_eq] at h
    simpa using h.1.2

theorem octet_loop (e : Nat) :
    ∀ (n : Nat) (s : GoString), s.length + 1 = 3 * (n + 1) →
      (List.range (n + 1)).all (fun i => (xtoi2 (s.drop (3 * i)) e).isSome) =
        octetForm e (n + 1) s
  | 0, s, hl => by
    match s, hl with
    | [a, b], _ =>
      simp [List.range, List.range.loop, xtoi2_isSome, octetForm]
  | n + 1, s, hl => by
    match s, hl with
    | a :: b :: c :: rest, hl =>
      rw [range_succ_all]
      have hrest : rest.length + 1 = 3 * (n + 1) := by
        simp only [List.length_cons] at hl
        omega
      have ih := octet_loop e n rest hrest
      have hshift : (fun i => (xtoi2 ((a :: b :: c :: rest).drop (3 * (i + 1))) e).isSome) =
          (fun i => (xtoi2 (rest.drop (3 * i)) e).isSome) := by
        funext i
        have : 3 * (i + 1) = 3 * i + 3 := by omega
        rw [this]
        rfl
      rw [hshift, ih]
      simp only [Nat.mul_zero, List.drop_zero, xtoi2_isSome, octetForm]
      simp only [List.length_cons, List.getD_cons_succ, List.getD_cons_zero]
      have : ¬ (rest.length + 1 + 1 + 1 ≤ 2) := by omega
      simp only [this, false_or]
      cases isHexDigit a <;> cases isHexDigit b <;> cases decide (c = e) <;> rfl

theorem groupForm_length (sep : Nat) :
    ∀ (n : Nat) (s : GoString), groupForm sep n s = true → s.length + 1 = 5 * n
  | 0, s, h => by simp [groupForm] at h
  | 1, s, h => by
    match s, h with
    | [a, b, c, d], _ => rfl
  | n + 2, s, h => by
    match s, h with
    | a :: b :: c :: d :: e :: rest, h =>
      simp only [groupForm, Bool.and_eq_true] at h
      have := groupForm_length sep (n + 1) rest h.2
      simp only [List.length_cons]
      omega

theorem groupForm_sep (sep : Nat) (n : Nat) (s : GoString)
    (h : groupForm sep (n + 2) s = true) : s.getD 4 0 = sep := by
  match s, h with
  | a :: b :: c :: d :: e :: rest, h =>
    simp only [groupForm, Bool.and_eq_true, decide_eq_true_eq] at h
    simpa using h.1.2

theorem groupForm_third (sep : Nat) (n : Nat) (s : GoString)
    (h : groupForm sep (n + 2) s = true) : isHexDigit (s.getD 2 0) = true := by
  match s, h with
  | a :: b :: c :: d :: e :: rest, h =>
    simp only [groupForm, Bool.and_eq_true, decide_eq_true_eq] at h
    simpa using h.1.1.1.2

theorem group_loop (e : Nat) :
    ∀ (n : Nat) (s : GoString), s.length + 1 = 5 * (n + 1) →
      (List.range (n + 1)).all (fun i =>
        (xtoi2 ((s.drop (5 * i)).take 2) 0).isSome && (xtoi2 (s.drop (5 * i + 2)) e).isSome) =
        groupForm e (n + 1) s
  | 0, s, hl => by
    match s, hl with
    | [a, b, c, d], _ =>
      simp [List.range, List.range.loop, xtoi2_isSome, groupForm, Bool.and_assoc]
  | n + 1, s, hl => by
    match s, hl with
    | a :: b :: c :: d :: x :: rest, hl =>
      rw [range_succ_all]
      have hrest : rest.length + 1 = 5 * (n + 1) := by
        simp only [List.length_cons] at hl
        omega
      have ih := group_loop e n rest hrest
      have hshift : (fun i =>
          (xtoi2 (((a :: b :: c :: d :: x :: rest).drop (5 * (i + 1))).take 2) 0).isSome &&
            (xtoi2 ((a :: b :: c :: d :: x :: rest).drop (5 * (i + 1) + 2)) e).isSome) =
          (fun i => (xtoi2 ((rest.drop (5 * i)).take 2) 0).isSome &&
            (xtoi2 (rest.drop (5 * i + 2)) e).isSome) := by
        funext i
        have h1 : 5 * (i + 1) = 5 * i + 5 := by omega
        have h2 : 5 * (i + 1) + 2 = 5 * i + 2 + 5 := by omega
        rw [h2, h1]
        rfl
      rw [hshift, ih]
      simp only [Nat.mul_zero, Nat.zero_add, List.drop_zero, xtoi2_isSome, groupForm]
      simp only [List.drop, List.take, List.length_cons, List.length_nil, List.getD_cons_succ,
        List.getD_cons_zero]
      have : ¬ (rest.length + 1 + 1 + 1 ≤ 2) := by omega
      simp only [this, false_or]
      cases isHexDigit a <;> cases isHexDigit b <;> cases isHexDigit c <;>
        cases isHexDigit d <;> cases decide (x = e) <;> simp

theorem plain_loop :
    ∀ (n : Nat) (s : GoString), s.length = 2 * n →
      (List.range n).all (fun i => (xtoi2 ((s.drop (2 * i)).take 2) 0).isSome) =
        s.all isHexDigit
  | 0, s, hl => by
    have : s = [] := List.length_eq_zero.mp (by omega)
    subst this
    rfl
  | n + 1, s, hl => by
    match s, hl with
    | a :: b :: rest, hl =>
      rw [range_succ_all]
      have hrest : rest.length = 2 * n := by
        simp only [List.length_cons] at hl
        omega
      have ih := plain_loop n rest hrest
      have hshift : (fun i =>
          (xtoi2 (((a :: b :: rest).drop (2 * (i + 1))).take 2) 0).isSome) =
          (fun i => (xtoi2 ((rest.drop (2 * i)).take 2) 0).isSome) := by
        funext i
        have h1 : 2 * (i + 1) = 2 * i + 2 := by omega
        rw [h1]
        rfl
      rw [hshift, ih]
      simp only [Nat.mul_zero, List.drop_zero, xtoi2_isSome, List.all_cons]
      cases rest with
      | nil => simp [Bool.and_assoc]
      | cons c rest2 => simp [Bool.and_assoc]

theorem all_hex_getD (s : GoString) (k : Nat) (hk : k < s.length)
    (h : s.all isHexDigit = true) : isHexDigit (s.getD k 0) = true := by
  rw [List.all_eq_true] at h
  have hm : s.getD k 0 ∈ s := by
    rw [List.getD_eq_getElem _ _ hk]
    exact List.getElem_mem _
  exact h _ hm

theorem ParseMAC_isSome (s : GoString) :
    (ParseMAC s).isSome = true ↔
      (((s.getD 2 0 = 58 ∨ s.getD 2 0 = 45) ∧ (s.length + 1) % 3 = 0 ∧
          ((s.length + 1) / 3 = 6 ∨ (s.length + 1) / 3 = 8 ∨ (s.length + 1) / 3 = 20) ∧
          (List.range ((s.length + 1) / 3)).all
            (fun i => (xtoi2 (s.drop (3 * i)) (s.getD 2 0)).isSome) = true) ∨
        (¬ (s.getD 2 0 = 58 ∨ s.getD 2 0 = 45) ∧ s.getD 4 0 = 46 ∧ (s.length + 1) % 5 = 0 ∧
          (2 * (s.length + 1) / 5 = 6 ∨ 2 * (s.length + 1) / 5 = 8 ∨
            2 * (s.length + 1) / 5 = 20) ∧
          (List.range (2 * (s.length + 1) / 5 / 2)).all
            (fun i => (xtoi2 ((s.drop (5 * i)).take 2) 0).isSome &&
              (xtoi2 (s.drop (5 * i + 2)) (s.getD 4 0)).isSome) = true) ∨
        (¬ (s.getD 2 0 = 58 ∨ s.getD 2 0 = 45) ∧ s.getD 4 0 ≠ 46 ∧ s.length % 2 = 0 ∧
          (s.length / 2 = 6 ∨ s.length / 2 = 8 ∨ s.length / 2 = 20) ∧
          (List.range (s.length / 2)).all
            (fun i => (xtoi2 ((s.drop (2 * i)).take 2) 0).isSome) = true)) := by
  have hmap : ∀ o : Option (List (List Nat)), (o.map List.flatten).isSome = o.isSome :=
    fun o => by cases o <;> rfl
  have hpair : ∀ i, (match xtoi2 ((s.drop (5 * i)).take 2) 0,
        xtoi2 (s.drop (5 * i + 2)) (s.getD 4 0) with
      | some a, some b => some [a, b]
      | _, _ => none).isSome =
      ((xtoi2 ((s.drop (5 * i)).take 2) 0).isSome &&
        (xtoi2 (s.drop (5 * i + 2)) (s.getD 4 0)).isSome) := by
    intro i
    cases xtoi2 ((s.drop (5 * i)).take 2) 0 <;>
      cases xtoi2 (s.drop (5 * i + 2)) (s.getD 4 0) <;> rfl
  unfold ParseMAC
  by_cases hsep : s.getD 2 0 = 58 ∨ s.getD 2 0 = 45
  · rw [if_pos hsep]
    by_cases h3 : (s.length + 1) % 3 ≠ 0
    · rw [if_pos h3]
      constructor
      · intro h; cases h
      · rintro (⟨-, h, -⟩ | ⟨h, -⟩ | ⟨h, -⟩)
        · exact absurd h h3
        · exact absurd hsep h
        · exact absurd hsep h
    · rw [if_neg h3]
      simp only []
      by_cases hn : (s.length + 1) / 3 ≠ 6 ∧ (s.length + 1) / 3 ≠ 8 ∧ (s.length + 1) / 3 ≠ 20
      · rw [if_pos hn]
        constructor
        · intro h; cases h
        · rintro (⟨-, -, h, -⟩ | ⟨h, -⟩ | ⟨h, -⟩)
          · omega
          · exact absurd hsep h
          · exact absurd hsep h
      · rw [if_neg hn, mapM_isSome]
        constructor
        · intro h
          exact Or.inl ⟨hsep, by omega, by omega, h⟩
        · rintro (⟨-, -, -, h⟩ | ⟨h, -⟩ | ⟨h, -⟩)
          · exact h
          · exact absurd hsep h
          · exact absurd hsep h
  · rw [if_neg hsep]
    by_cases hdot : s.getD 4 0 = 46
    · rw [if_pos hdot]
      by_cases h5 : (s.length + 1) % 5 ≠ 0
      · rw [if_pos h5]
        constructor
        · intro h; cases h
        · rintro (⟨h, -⟩ | ⟨-, -, h, -⟩ | ⟨-, h, -⟩)
          · exact absurd h hsep
          · exact absurd h h5
          · exact absurd hdot h
      · rw [if_neg h5]
        simp only []
        by_cases hn : 2 * (s.length + 1) / 5 ≠ 6 ∧ 2 * (s.length + 1) / 5 ≠ 8 ∧
            2 * (s.length + 1) / 5 ≠ 20
        · rw [if_pos hn]
          constructor
          · intro h; cases h
          · rintro (⟨h, -⟩ | ⟨-, -, -, h, -⟩ | ⟨-, h, -⟩)
            · exact absurd h hsep
            · omega
            · exact absurd hdot h
        · rw [if_neg hn, hmap, mapM_isSome]
          simp only [hpair]
          constructor
          · intro h
            exact Or.inr (Or.inl ⟨hsep, hdot, by omega, by omega, h⟩)
          · rintro (⟨h, -⟩ | ⟨-, -, -, -, h⟩ | ⟨-, h, -⟩)
            · exact absurd h hsep
            · exact h
            · exact absurd hdot h
    · rw [if_neg hdot]
      by_cases h2 : s.length % 2 ≠ 0
      · rw [if_pos h2]
        constructor
        · intro h; cases h
        · rintro (⟨h, -⟩ | ⟨-, h, -⟩ | ⟨-, -, h, -⟩)
          · exact absurd h hsep
          · exact absurd h hdot
          · exact absurd h h2
      · rw [if_neg h2]
        simp only []
        by_cases hn : s.length / 2 ≠ 6 ∧ s.length / 2 ≠ 8 ∧ s.length / 2 ≠ 20
        · rw [if_pos hn]
          constructor
          · intro h; cases h
          · rintro (⟨h, -⟩ | ⟨-, h, -⟩ | ⟨-, -, -, h, -⟩)
            · exact absurd h hsep
            · exact absurd h hdot
            · omega
        · rw [if_neg hn, mapM_isSome]
          constructor
          · intro h
            exact Or.inr (Or.inr ⟨hsep, hdot, by omega, by omega, h⟩)
          · rintro (⟨h, -⟩ | ⟨-, h, -⟩ | ⟨-, -, -, -, h⟩)
            · exact absurd h hsep
            · exact absurd h hdot
            · exact h

theorem isValidMAC_of_octetForm (e n : Nat) (s : GoString) (he : e = 58 ∨ e = 45)
    (hn : n = 6 ∨ n = 8 ∨ n = 20) (h : octetForm e n s = true) : isValidMAC s = true := by
  have hl := octetForm_length e n s h
  obtain ⟨m, rfl⟩ : ∃ m, n = m + 2 := ⟨n - 2, by omega⟩
  have hs := octetForm_sep e m s h
  have hdiv : (s.length + 1) / 3 = m + 1 + 1 := by omega
  unfold isValidMAC
  rw [ParseMAC_isSome]
  refine Or.inl ⟨by rw [hs]; exact he, by omega, by omega, ?_⟩
  rw [hdiv, hs, octet_loop e (m + 1) s (by omega)]
  exact h

theorem isValidMAC_of_groupForm (n : Nat) (s : GoString)
    (hn : n = 3 ∨ n = 4 ∨ n = 10) (h : groupForm 46 n s = true) : isValidMAC s = true := by
  have hl := groupForm_length 46 n s h
  obtain ⟨m, rfl⟩ : ∃ m, n = m + 2 := ⟨n - 2, by omega⟩
  have hs := groupForm_sep 46 m s h
  have h3 := isHexDigit_ne_sep _ (groupForm_third 46 m s h)
  have hdiv : 2 * (s.length + 1) / 5 / 2 = m + 1 + 1 := by omega
  unfold isValidMAC
  rw [ParseMAC_isSome]
  refine Or.inr (Or.inl ⟨fun hc => hc.elim h3.1 h3.2.1, hs, by omega, by omega, ?_⟩)
  rw [hdiv, hs, group_loop 46 (m + 1) s (by omega)]
  exact h

theorem isValidMAC_of_plainForm (n : Nat) (s : GoString)
    (hn : n = 6 ∨ n = 8 ∨ n = 20) (h : plainForm n s = true) : isValidMAC s = true := by
  unfold plainForm at h
  simp only [Bool.and_eq_true, decide_eq_true_eq] at h
  obtain ⟨hl, hall⟩ := h
  have h2 := isHexDigit_ne_sep _ (all_hex_getD s 2 (by omega) hall)
  have h4 := isHexDigit_ne_sep _ (all_hex_getD s 4 (by omega) hall)
  have hdiv : s.length / 2 = n := by omega
  unfold isValidMAC
  rw [ParseMAC_isSome]
  refine Or.inr (Or.inr ⟨fun hc => hc.elim h2.1 h2.2.1, h4.2.2, by omega, by omega, ?_⟩)
  rw [hdiv, plain_loop n s hl]
  exact hall

theorem isValidMAC_iff (s : GoString) :
    isValidMAC s = true ↔
      ∃ n, (n = 6 ∨ n = 8 ∨ n = 20) ∧
        (octetForm 58 n s = true ∨ octetForm 45 n s = true ∨
          groupForm 46 (n / 2) s = true ∨ plainForm n s = true) := by
  constructor
  · intro h
    unfold isValidMAC at h
    rw [ParseMAC_isSome] at h
    rcases h with ⟨hsep, h3, hn, hall⟩ | ⟨-, hdot, h5, hn, hall⟩ | ⟨-, -, h2, hn, hall⟩
    · obtain ⟨m, hm⟩ : ∃ m, (s.length + 1) / 3 = m + 1 := ⟨(s.length + 1) / 3 - 1, by omega⟩
      rw [hm] at hall hn
      rw [octet_loop _ m s (by omega)] at hall
      refine ⟨m + 1, hn, ?_⟩
      rcases hsep with hs | hs
      · rw [hs] at hall; exact Or.inl hall
      · rw [hs] at hall; exact Or.inr (Or.inl hall)
    · obtain ⟨m, hm⟩ : ∃ m, 2 * (s.length + 1) / 5 / 2 = m + 1 :=
        ⟨2 * (s.length + 1) / 5 / 2 - 1, by omega⟩
      rw [hm] at hall
      rw [group_loop _ m s (by omega), hdot] at hall
      refine ⟨2 * (s.length + 1) / 5, hn, Or.inr (Or.inr (Or.inl ?_))⟩
      rw [hm]
      exact hall
    · rw [plain_loop (s.length / 2) s (by omega)] at hall
      refine ⟨s.length / 2, hn, Or.inr (Or.inr (Or.inr ?_))⟩
      unfold plainForm
      rw [hall, Bool.and_true, decide_eq_true_eq]
      omega
  · rintro ⟨n, hn, h | h | h | h⟩
    · exact isValidMAC_of_octetForm 58 n s (Or.inl rfl) hn h
    · exact isValidMAC_of_octetForm 45 n s (Or.inr rfl) hn h
    · exact isValidMAC_of_groupForm (n / 2) s (by omega) h
    · exact isValidMAC_of_plainForm n s hn h

/-- C12 (counterexample). The dot-delimited form `aabb.ccdd.eeff` and the
8-octet form `AA:BB:CC:DD:EE:FF:00:11` are accepted by `isValidMAC`, and
neither is six octets separated by `:` throughout or by `-` throughout. -/
theorem isValidMAC_accepts_other_forms :
    ¬ (isValidMAC (str "aabb.ccdd.eeff") = true ↔
        (octetForm 58 6 (str "aabb.ccdd.eeff") = true ∨
          octetForm 45 6 (str "aabb.ccdd.eeff") = true)) ∧
    ¬ (isValidMAC (str "AA:BB:CC:DD:EE:FF:00:11") = true ↔
        (octetForm 58 6 (str "AA:BB:CC:DD:EE:FF:00:11") = true ∨
          octetForm 45 6 (str "AA:BB:CC:DD:EE:FF:00:11") = true)) := by
  decide

/-- C12 (as amended). For a string `s` that is not an 8- or 20-octet form,
`isValidMAC s` is true exactly when `s` is one of the 6-octet forms: six
two-hex-digit octets separated by `:` throughout or by `-` throughout, three
four-hex-digit groups separated by `.`, or twelve hex digits with no
separator.  Every other such string is rejected. -/
theorem isValidMAC_forms (s : GoString) (hlong : isLongForm s = false) :
    isValidMAC s = true ↔
      (octetForm 58 6 s = true ∨ octetForm 45 6 s = true ∨ groupForm 46 3 s = true ∨
        plainForm 6 s = true) := by
  unfold isLongForm at hlong
  simp only [List.any_cons, List.any_nil, Bool.or_false, Bool.or_eq_false_iff] at hlong
  obtain ⟨⟨⟨⟨h1, h2⟩, h3⟩, h4⟩, ⟨⟨h5, h6⟩, h7⟩, h8⟩ := hlong
  rw [isValidMAC_iff]
  constructor
  · rintro ⟨n, hn | hn | hn, h⟩
    · subst hn
      exact h
    · subst hn
      rcases h with h | h | h | h
      · rw [h1] at h; cases h
      · rw [h2] at h; cases h
      · rw [h3] at h; cases h
      · rw [h4] at h; cases h
    · subst hn
      rcases h with h | h | h | h
      · rw [h5] at h; cases h
      · rw [h6] at h; cases h
      · rw [h7] at h; cases h
      · rw [h8] at h; cases h
  · intro h
    exact ⟨6, Or.inl rfl, h⟩

/-- Witness for C12: the dot form and the form with no separator are accepted,
a form with mixed separators is rejected; none of them is an 8- or 20-octet
form. -/
theorem isValidMAC_forms_witness :
    isLongForm (str "aabb.ccdd.eeff") = false ∧
    isValidMAC (str "aabb.ccdd.eeff") = true ∧
    isValidMAC (str "AABBCCDDEEFF") = true ∧
    isValidMAC (str "AA:BB-CC:DD:EE:FF") = false :=
  ⟨by decide,
    (isValidMAC_forms (str "aabb.ccdd.eeff") (by decide)).2
      (Or.inr (Or.inr (Or.inl (by decide)))),
    by decide, by decide⟩

/-! ## Theorems: the resolver -/

theorem To4_length (ip ip4 : List Nat) (h : To4 ip = some ip4) : ip4.length = 4 := by
  unfold To4 at h
  split_ifs at h with h1 h2
  · injection h with h; rw [← h]; exact h1
  · injection h with h; rw [← h, List.length_drop, h2.1]

theorem broadcastOf_eq_spec (ip4 mask : List Nat) (h : ip4.length = 4) :
    broadcastOf ip4 mask = broadcastSpec ip4 mask := by
  unfold broadcastOf broadcastSpec
  rw [h]
  rfl

theorem ipv4Addrs_length (i : Interface) : ∀ a ∈ ipv4Addrs i, a.1.length = 4 := by
  intro a ha
  unfold ipv4Addrs at ha
  cases hA : i.Addrs with
  | none => simp [hA] at ha
  | some addrs =>
    simp only [hA, List.mem_filterMap] at ha
    obtain ⟨addr, -, haddr⟩ := ha
    cases addr with
    | none => simp at haddr
    | some c =>
      simp only [Option.map_eq_some'] at haddr
      obtain ⟨ip4, h4, rfl⟩ := haddr
      exact To4_length c.ip ip4 h4

theorem addrsLoop_eq (addrs : List (Option CIDR)) :
    ∀ list : List GoString,
      addrsLoop addrs list =
        list ++ (ipv4Addrs { Flags := 0, Addrs := some addrs }).map
          (fun a => ipString (broadcastSpec a.1 a.2)) := by
  induction addrs with
  | nil => intro list; simp [addrsLoop, ipv4Addrs]
  | cons addr rest ih =>
    intro list
    have hstep : addrsLoop (addr :: rest) list =
        addrsLoop rest
          (match addr with
            | none => list
            | some c =>
              match To4 c.ip with
              | none => list
              | some ip4 => list ++ [ipString (broadcastOf ip4 c.mask)]) := rfl
    rw [hstep, ih]
    cases addr with
    | none => simp [ipv4Addrs]
    | some c =>
      cases h4 : To4 c.ip with
      | none => simp [ipv4Addrs, h4]
      | some ip4 =>
        simp [ipv4Addrs, h4, broadcastOf_eq_spec ip4 c.mask (To4_length c.ip ip4 h4)]

theorem usable_iff (i : Interface) :
    usable i = false ↔ (i.Flags &&& FlagUp = 0 ∨ i.Flags &&& FlagLoopback ≠ 0) := by
  unfold usable
  by_cases h1 : i.Flags &&& FlagUp = 0 <;> by_cases h2 : i.Flags &&& FlagLoopback = 0 <;>
    simp [h1, h2]

theorem interfaces_foldl (ifaces : List Interface) :
    ∀ list : List GoString,
      ifaces.foldl
        (fun list i =>
          if i.Flags &&& FlagUp = 0 ∨ i.Flags &&& FlagLoopback ≠ 0 then list
          else
            match i.Addrs with
            | none => list
            | some addrs => addrsLoop addrs list)
        list =
      list ++ (usableIPv4 ifaces).map (fun a => ipString (broadcastSpec a.1 a.2)) := by
  induction ifaces with
  | nil => intro list; simp [usableIPv4]
  | cons i rest ih =>
    intro list
    rw [List.foldl_cons, ih]
    by_cases hu : i.Flags &&& FlagUp = 0 ∨ i.Flags &&& FlagLoopback ≠ 0
    · rw [if_pos hu]
      have : usable i = false := (usable_iff i).2 hu
      simp [usableIPv4, List.filter_cons, this]
    · rw [if_neg hu]
      have : usable i = true := by
        cases h : usable i with
        | true => rfl
        | false => exact absurd ((usable_iff i).1 h) hu
      cases hA : i.Addrs with
      | none => simp [usableIPv4, List.filter_cons, this, ipv4Addrs, hA]
      | some addrs =>
        simp only []
        rw [addrsLoop_eq]
        simp [usableIPv4, List.filter_cons, this, ipv4Addrs, hA]

/-- The resolver returns, for the IPv4 addresses of the usable interfaces in
order, the dotted-decimal text of their broadcast addresses. -/
theorem getBroadcastAddresses_ok (ifaces : List Interface) :
    getBroadcastAddresses (.ok ifaces) =
      .ok ((usableIPv4 ifaces).map (fun a => ipString (broadcastSpec a.1 a.2))) := by
  unfold getBroadcastAddresses
  simp only []
  rw [interfaces_foldl]
  simp

theorem not8_testBit (m i : Nat) (hm : m < 256) :
    (255 - m).testBit i = (decide (i < 8) && !m.testBit i) := by
  have h : 255 - m = 2 ^ 8 - (m + 1) := by omega
  rw [h, Nat.testBit_two_pow_sub_succ (by simpa using hm)]

theorem broadcast_bits (a m : Nat) (ha : a < 256) (hm : m < 256) :
    (a ||| (255 - m)) &&& m = a &&& m ∧
    (a ||| (255 - m)) &&& (255 - m) = 255 - m ∧
    (a ||| (255 - m)) < 256 := by
  refine ⟨?_, ?_, ?_⟩
  · apply Nat.eq_of_testBit_eq
    intro i
    simp only [Nat.testBit_land, Nat.testBit_lor, not8_testBit m i hm]
    cases a.testBit i <;> cases m.testBit i <;> simp
  · apply Nat.eq_of_testBit_eq
    intro i
    simp only [Nat.testBit_land, Nat.testBit_lor, not8_testBit m i hm]
    cases a.testBit i <;> cases m.testBit i <;> simp
  · have h1 : 255 - m < 2 ^ 8 := by omega
    have h2 : a < 2 ^ 8 := by omega
    exact Nat.or_lt_two_pow h2 h1

/-- C13. The resolver's output consists exactly of the broadcast addresses of
the IPv4 addresses of the interfaces that are up and not loopback, one per
address in the order of enumeration, each the four octets
`ip[k] OR (255 - m[k])` written in dotted decimal; interfaces that are down or
loopback and addresses that are not IPv4 contribute nothing.  For bytes, the
octet agrees with `ip[k]` on the bits of the mask and has every other bit set.
The address `192.168.1.50` with mask `255.255.255.0` gives `192.168.1.255`. -/
theorem getBroadcastAddresses_exact (ifaces : List Interface) :
    getBroadcastAddresses (.ok ifaces) =
      .ok (((ifaces.filter usable).flatMap ipv4Addrs).map
        (fun a => ipString
          [a.1.getD 0 0 ||| (255 - a.2.getD 0 0), a.1.getD 1 0 ||| (255 - a.2.getD 1 0),
           a.1.getD 2 0 ||| (255 - a.2.getD 2 0), a.1.getD 3 0 ||| (255 - a.2.getD 3 0)])) ∧
    (∀ i ∈ ifaces, ∀ a ∈ ipv4Addrs i, a.1.length = 4) ∧
    (∀ i ∈ ifaces, usable i = false → ∀ rest,
      getBroadcastAddresses (.ok (i :: rest)) = getBroadcastAddresses (.ok rest)) ∧
    (∀ b m, b < 256 → m < 256 →
      (b ||| (255 - m)) &&& m = b &&& m ∧ (b ||| (255 - m)) &&& (255 - m) = 255 - m ∧
        (b ||| (255 - m)) < 256) ∧
    getBroadcastAddresses (.ok [lanInterface]) = .ok [str "192.168.1.255"] := by
  refine ⟨getBroadcastAddresses_ok ifaces, fun i _ => ipv4Addrs_length i, ?_, broadcast_bits,
    by decide⟩
  intro i _ hi rest
  rw [getBroadcastAddresses_ok, getBroadcastAddresses_ok]
  simp [usableIPv4, List.filter_cons, hi]

/-- C14 (counterexample). Two addresses of one subnet on an interface that is
up give the same broadcast address twice: the result is not duplicate-free. -/
theorem getBroadcastAddresses_repeats :
    getBroadcastAddresses (.ok [twoInSubnet]) =
      .ok [str "192.168.1.255", str "192.168.1.255"] ∧
    ¬ (∀ out, getBroadcastAddresses (.ok [twoInSubnet]) = .ok out → out.Nodup) := by
  refine ⟨by decide, ?_⟩
  intro h
  have hn := h [str "192.168.1.255", str "192.168.1.255"] (by decide)
  exact absurd hn (by decide)

/-- C14 (as amended). The resolver returns one entry per IPv4 address of an
interface that is up and not loopback, in the order of enumeration; the
entries are pairwise distinct exactly when no two of these addresses have the
same broadcast address, so addresses of one subnet give repeated entries. -/
theorem getBroadcastAddresses_entries (ifaces : List Interface) :
    ∃ out, getBroadcastAddresses (.ok ifaces) = .ok out ∧
      out.length = (usableIPv4 ifaces).length ∧
      (∀ k : Nat, out[k]? =
        (usableIPv4 ifaces)[k]?.map
          (fun (a : List Nat × List Nat) => ipString (broadcastSpec a.1 a.2))) ∧
      (out.Nodup ↔
        (usableIPv4 ifaces).Pairwise
          (fun a b => ipString (broadcastSpec a.1 a.2) ≠ ipString (broadcastSpec b.1 b.2))) := by
  refine ⟨_, getBroadcastAddresses_ok ifaces, List.length_map _ _,
    fun k => List.getElem?_map _ _ _, ?_⟩
  unfold List.Nodup
  rw [List.pairwise_map]

end Wol
